import Mathlib

/-!
Verification development for the `frostparse` combat-log parser and its
aggregation engine.  The definitions below are a shallow embedding of the
Go source files (`utils.go`, `parser.go`, `summary.go` and the data-model
file): pure Go functions become Lean functions, Go panics become `Option`
failures (`none`), Go `map` values become total functions with default
zero, and Go's 64-bit unsigned arithmetic is modelled on `Nat` with an
explicit modulus `2 ^ 64`.
-/

namespace Frostparse

/-! ## Machine-integer helpers (Go int64 / uint64 semantics) -/

/-- Wrap-around for `2 ^ 64`, the modulus of Go's `uint64`. -/
def U64MOD : Nat := 2 ^ 64

/-- Go conversion `uint64(i)` of a signed 64-bit value: two's-complement
reinterpretation, i.e. the value modulo `2 ^ 64`. -/
def toUint64 (i : Int) : Nat := (Int.emod i ((2 : Int) ^ 64)).toNat

/-- Go conversion `int64(u)`/`int(u)` of an unsigned 64-bit value:
two's-complement reinterpretation back into the signed range. -/
def toInt64 (n : Nat) : Int :=
  let m : Nat := n % 2 ^ 64
  if m < 2 ^ 63 then (m : Int) else (m : Int) - 2 ^ 64

/-! ## Character-list string primitives (Go `strings` package) -/

/-- Decimal digit test. -/
def isDigitCh (c : Char) : Bool := '0' ≤ c && c ≤ '9'

/-- Numeric value of a decimal digit character. -/
def digitVal (c : Char) : Nat := c.toNat - '0'.toNat

/-- Value of a non-empty all-digit character list, `none` otherwise.
Models the accepting loop of `strconv.ParseInt` for base 10. -/
def digitsVal : List Char → Option Nat
  | [] => none
  | [c] => if isDigitCh c then some (digitVal c) else none
  | c :: rest =>
    if isDigitCh c then
      match digitsVal rest with
      | some n => some (digitVal c * 10 ^ rest.length + n)
      | none => none
    else none

/-- Whether the first list is a prefix of the second
(Go `strings.HasPrefix` on rune lists). -/
def isPrefixList : List Char → List Char → Bool
  | [], _ => true
  | _ :: _, [] => false
  | p :: ps, c :: cs => p = c && isPrefixList ps cs

/-- Go `strings.HasPrefix`. -/
def strHasPrefix (s pre : String) : Bool := isPrefixList pre.toList s.toList

/-- Whether `pat` occurs as a contiguous sublist of `hay`
(Go `strings.Contains` on rune lists). -/
def containsList (hay pat : List Char) : Bool :=
  match hay with
  | [] => pat.isEmpty
  | _ :: rest => isPrefixList pat hay || containsList rest pat

/-- Go `strings.Contains`. -/
def strContains (s sub : String) : Bool := containsList s.toList sub.toList

/-- Replace every non-overlapping occurrence of `pat` (non-empty) by `repl`,
scanning left to right; `fuel` bounds the recursion and is instantiated
with the input length.  Models Go `strings.Replace(s, pat, repl, -1)`. -/
def replaceList (fuel : Nat) (s pat repl : List Char) : List Char :=
  match fuel, s with
  | _, [] => []
  | 0, s => s
  | fuel + 1, c :: rest =>
    if isPrefixList pat (c :: rest) then
      repl ++ replaceList fuel (List.drop pat.length (c :: rest)) pat repl
    else
      c :: replaceList fuel rest pat repl

/-- Go `strings.ReplaceAll` / `strings.Replace(s, old, new, -1)`. -/
def strReplaceAll (s pat repl : String) : String :=
  String.mk (replaceList s.toList.length s.toList pat.toList repl.toList)

/-- Split around every non-overlapping occurrence of the (non-empty)
separator, scanning left to right; `fuel` bounds the recursion.
Models Go `strings.Split`. -/
def splitGo (fuel : Nat) (s sep : List Char) : List (List Char) :=
  match fuel, s with
  | _, [] => [[]]
  | 0, s => [s]
  | fuel + 1, c :: rest =>
    if isPrefixList sep (c :: rest) then
      [] :: splitGo (fuel) (List.drop sep.length (c :: rest)) sep
    else
      match splitGo fuel rest sep with
      | [] => [[c]]
      | t :: ts => (c :: t) :: ts

/-- Go `strings.Split` on `String`. -/
def strSplit (s sep : String) : List String :=
  (splitGo s.toList.length s.toList sep.toList).map String.mk

/-! ## `strconv` number parsing -/

/-- Go `strconv.ParseInt(s, 10, 64)`: optional sign, non-empty digit run,
value restricted to the `int64` range; `none` models the error return
(which every `must...` caller turns into an abort). -/
def ParseInt64 (s : String) : Option Int :=
  match s.toList with
  | [] => none
  | c :: rest =>
    let signed : Bool × List Char :=
      if c = '-' then (true, rest)
      else if c = '+' then (false, rest)
      else (false, c :: rest)
    match digitsVal signed.2 with
    | none => none
    | some n =>
      if signed.1 then
        if (n : Int) ≤ 2 ^ 63 then some (-(n : Int)) else none
      else
        if (n : Int) ≤ 2 ^ 63 - 1 then some (n : Int) else none

/-- Go `strconv.ParseBool`. -/
def ParseBool (s : String) : Option Bool :=
  match s with
  | "1" | "t" | "T" | "true" | "TRUE" | "True" => some true
  | "0" | "f" | "F" | "false" | "FALSE" | "False" => some false
  | _ => none

/-! ## Timestamp parsing

The combat log timestamp layout is `"2006/1/_2 15:04:05.000"` (Go
`time.Parse` reference layout, `combatLogTimestampFormat` in `utils.go`):
a four-digit year, `/`, a one-or-two-digit month, `/`, an optionally
space-padded one-or-two-digit day, a space, a one-or-two-digit 24h hour,
`:`, a two-digit minute, `:`, a two-digit second, `.`, exactly three
fractional digits.  The parsed instant is modelled as a millisecond count
on a proleptic-Gregorian day number (only its use as an ordered key and
in truncation matters to the engine). -/

/-- Read exactly `n` decimal digits, most significant first. -/
def readDigitsExact : Nat → List Char → Option (Nat × List Char)
  | 0, s => some (0, s)
  | n + 1, [] => let _ := n; none
  | n + 1, c :: rest =>
    if isDigitCh c then
      match readDigitsExact n rest with
      | some (v, rest2) => some (digitVal c * 10 ^ n + v, rest2)
      | none => none
    else none

/-- Read one or two decimal digits (Go `getnum` with `fixed = false`). -/
def readDigits1or2 : List Char → Option (Nat × List Char)
  | [] => none
  | c :: rest =>
    if isDigitCh c then
      match rest with
      | c2 :: rest2 =>
        if isDigitCh c2 then some (digitVal c * 10 + digitVal c2, rest2)
        else some (digitVal c, rest)
      | [] => some (digitVal c, [])
    else none

/-- Consume one expected character. -/
def expectCh (c : Char) : List Char → Option (List Char)
  | [] => none
  | x :: rest => if x = c then some rest else none

/-- Gregorian leap-year rule. -/
def isLeapYear (y : Nat) : Bool := y % 4 = 0 && (y % 100 ≠ 0 || y % 400 = 0)

/-- Number of days of month `m` (1-12) in year `y`. -/
def daysInMonth (y m : Nat) : Nat :=
  match m with
  | 2 => if isLeapYear y then 29 else 28
  | 4 => 30
  | 6 => 30
  | 9 => 30
  | 11 => 30
  | _ => 31

/-- Proleptic-Gregorian day number of `y-m-d` (standard civil-from-days
construction; the origin is irrelevant, only order and differences are). -/
def civilDays (y m d : Nat) : Nat :=
  let yy := if m ≤ 2 then y - 1 else y
  let era := yy / 400
  let yoe := yy % 400
  let mp := (m + 9) % 12
  let doy := (153 * mp + 2) / 5 + d - 1
  let doe := yoe * 365 + yoe / 4 - yoe / 100 + doy
  era * 146097 + doe

/-- Millisecond instant for a civil date-time. -/
def civilMillis (y m d h mi sec ms : Nat) : Int :=
  (((civilDays y m d * 86400 + h * 3600 + mi * 60 + sec) * 1000 + ms : Nat) : Int)

/-- `mustParseTimestamp` (`utils.go`): parse a `"YYYY/M/D H:MM:SS.mmm"`
string against the layout above; `none` models the abort that the Go
function performs when `time.Parse` reports an error. -/
def mustParseTimestamp (s : String) : Option Int :=
  match readDigitsExact 4 s.toList with
  | none => none
  | some (y, r1) =>
    match expectCh '/' r1 with
    | none => none
    | some r2 =>
      match readDigits1or2 r2 with
      | none => none
      | some (m, r3) =>
        match expectCh '/' r3 with
        | none => none
        | some r4 =>
          let r4' := match r4 with
            | ' ' :: rest => rest
            | other => other
          match readDigits1or2 r4' with
          | none => none
          | some (d, r5) =>
            match expectCh ' ' r5 with
            | none => none
            | some r6 =>
              match readDigits1or2 r6 with
              | none => none
              | some (h, r7) =>
                match expectCh ':' r7 with
                | none => none
                | some r8 =>
                  match readDigitsExact 2 r8 with
                  | none => none
                  | some (mi, r9) =>
                    match expectCh ':' r9 with
                    | none => none
                    | some r10 =>
                      match readDigitsExact 2 r10 with
                      | none => none
                      | some (sec, r11) =>
                        match expectCh '.' r11 with
                        | none => none
                        | some r12 =>
                          match readDigitsExact 3 r12 with
                          | none => none
                          | some (ms, r13) =>
                            if r13 = [] && 1 ≤ m && m ≤ 12 &&
                                1 ≤ d && d ≤ daysInMonth y m &&
                                h ≤ 23 && mi ≤ 59 && sec ≤ 59 then
                              some (civilMillis y m d h mi sec ms)
                            else none

/-! ## Data model (`models` source file)

`AuraType`, `EnvironmentalType` and `EventType` are string types in Go;
`PowerType` and `SpellSchool` are `int`-based.  Pointer-typed payload
members become `Option`s. -/

abbrev AuraType := String
abbrev EnvironmentalType := String
abbrev EventType := String
abbrev PowerType := Int
abbrev SpellSchool := Int

def DamageShield : EventType := "DAMAGE_SHIELD"
def DamageShieldMissed : EventType := "DAMAGE_SHIELD_MISSED"
def DamageSplit : EventType := "DAMAGE_SPLIT"
def EnchantApplied : EventType := "ENCHANT_APPLIED"
def EnchantRemoved : EventType := "ENCHANT_REMOVED"
def EnvironmentalDamage : EventType := "ENVIRONMENTAL_DAMAGE"
def PartyKill : EventType := "PARTY_KILL"
def RangeDamage : EventType := "RANGE_DAMAGE"
def RangeMissed : EventType := "RANGE_MISSED"
def SpellAuraApplied : EventType := "SPELL_AURA_APPLIED"
def SpellAuraAppliedDose : EventType := "SPELL_AURA_APPLIED_DOSE"
def SpellAuraRefresh : EventType := "SPELL_AURA_REFRESH"
def SpellAuraRemoved : EventType := "SPELL_AURA_REMOVED"
def SpellAuraRemovedDose : EventType := "SPELL_AURA_REMOVED_DOSE"
def SpellCastFailed : EventType := "SPELL_CAST_FAILED"
def SpellCastStart : EventType := "SPELL_CAST_START"
def SpellCastSuccess : EventType := "SPELL_CAST_SUCCESS"
def SpellCreate : EventType := "SPELL_CREATE"
def SpellDamage : EventType := "SPELL_DAMAGE"
def SpellDispell : EventType := "SPELL_DISPEL"
def SpellDrain : EventType := "SPELL_DRAIN"
def SpellEnergize : EventType := "SPELL_ENERGIZE"
def SpellExtraAttacks : EventType := "SPELL_EXTRA_ATTACKS"
def SpellHeal : EventType := "SPELL_HEAL"
def SpellInterrupt : EventType := "SPELL_INTERRUPT"
def SpellInstakill : EventType := "SPELL_INSTAKILL"
def SpellMissed : EventType := "SPELL_MISSED"
def SpellPeriodicDamage : EventType := "SPELL_PERIODIC_DAMAGE"
def SpellPeriodicEnergize : EventType := "SPELL_PERIODIC_ENERGIZE"
def SpellPeriodicHeal : EventType := "SPELL_PERIODIC_HEAL"
def SpellPeriodicLeech : EventType := "SPELL_PERIODIC_LEECH"
def SpellPeriodicMissed : EventType := "SPELL_PERIODIC_MISSED"
def SpellResurrect : EventType := "SPELL_RESURRECT"
def SpellSummon : EventType := "SPELL_SUMMON"
def SwingDamage : EventType := "SWING_DAMAGE"
def SwingMissed : EventType := "SWING_MISSED"
def UnitDied : EventType := "UNIT_DIED"

/-- `DamageEvents` contains the events that dealt damage. -/
def DamageEvents : List EventType :=
  [DamageShield, DamageSplit, RangeDamage, SpellDamage, SpellDrain,
   SpellExtraAttacks, SpellInstakill, SpellPeriodicDamage,
   SpellPeriodicLeech, SwingDamage]

/-- `HealEvents` contains the event types where healing was applied. -/
def HealEvents : List EventType :=
  [SpellHeal, SpellPeriodicHeal, SpellPeriodicLeech]

/-- `OverlayEvents` are non-damage/healing events of interest. -/
def OverlayEvents : List EventType :=
  [SpellAuraApplied, SpellAuraAppliedDose, SpellAuraRemoved,
   SpellAuraRefresh, SpellAuraRemovedDose, SpellDispell, SpellInterrupt,
   UnitDied]

/-- `BossNames` is the string enumeration containing the ICC boss names. -/
def BossNames : List String :=
  ["Lord Marrowgar", "Lady Deathwhisper", "The Skybreaker",
   "Orgrim's Hammer", "Deathbringer Saurfang", "Rotface", "Festergut",
   "Professor Putricide", "Valithria Dreamwalker", "Sindragosa",
   "The Lich King"]

/-- `SpellAndRangePrefix` is the most common prefix, containing spell
metadata for `SPELL_` and `RANGE_` event types. -/
structure SpellAndRangePrefix where
  SpellID : Nat
  SpellName : String
  SpellSchool : SpellSchool
deriving DecidableEq

/-- `EnchantPrefix` is used for `ENCHANT_` events. -/
structure EnchantPrefix where
  SpellName : String
  ItemID : Nat
  ItemName : String
deriving DecidableEq

/-- `EnvironmentalPrefix` is the prefix for `ENVIRONMENTAL_` events. -/
structure EnvironmentalPrefix where
  EnvironmentalType : EnvironmentalType
deriving DecidableEq

/-- `DamageSuffix` contains damage related metadata. -/
structure DamageSuffix where
  Amount : Nat
  Overkill : Nat
  SpellSchool : SpellSchool
  Resisted : Nat
  Blocked : Nat
  Absorbed : Nat
  Critical : Bool
deriving DecidableEq

/-- `AuraSuffix` contains aura related metadata. -/
structure AuraSuffix where
  AuraType : AuraType
deriving DecidableEq

/-- `EnergizeSuffix` contains power-energize metadata. -/
structure EnergizeSuffix where
  Amount : Int
  PowerType : PowerType
deriving DecidableEq

/-- `MissSuffix` identifies why some spell / swing missed. -/
structure MissSuffix where
  MissType : String
deriving DecidableEq

/-- `HealSuffix` contains info about a `_HEAL` event. -/
structure HealSuffix where
  Amount : Nat
  Overhealing : Nat
  Absorbed : Nat
  Critical : Bool
deriving DecidableEq

/-- `InterruptSuffix` contains metadata about the interrupted spell. -/
structure InterruptSuffix where
  ExtraSpellID : Nat
  ExtraSpellName : String
  ExtraSpellSchool : SpellSchool
deriving DecidableEq

/-- `ExtraAttacksSuffix` provides how much an extra-attack hit for. -/
structure ExtraAttacksSuffix where
  Amount : Nat
deriving DecidableEq

/-- `DispelOrStolenSuffix` provides which spell was debuffed; the parser
never sets `AuraType`, which therefore stays at Go's zero value `""`. -/
structure DispelOrStolenSuffix where
  ExtraSpellID : Nat
  ExtraSpellName : String
  ExtraSpellSchool : SpellSchool
  AuraType : AuraType := ""
deriving DecidableEq

/-- `LeechOrDrainSuffix` provides the leeched or drained power amount. -/
structure LeechOrDrainSuffix where
  Amount : Nat
  PowerType : PowerType
  ExtraAmount : Nat
deriving DecidableEq

/-- `Prefix` aggregates all prefix types; a member is `none` when the
event type does not match that prefix. -/
structure CombatPrefix where
  SpellAndRangePrefix : Option SpellAndRangePrefix := none
  EnchantPrefix : Option EnchantPrefix := none
  EnvironmentalPrefix : Option EnvironmentalPrefix := none
deriving DecidableEq

/-- `Suffix` aggregates all suffix types; a member is `none` unless the
event type selects it. -/
structure CombatSuffix where
  DamageSuffix : Option DamageSuffix := none
  AuraSuffix : Option AuraSuffix := none
  EnergizeSuffix : Option EnergizeSuffix := none
  MissSuffix : Option MissSuffix := none
  HealSuffix : Option HealSuffix := none
  InterruptSuffix : Option InterruptSuffix := none
  ExtraAttacksSuffix : Option ExtraAttacksSuffix := none
  DispelOrStolenSuffix : Option DispelOrStolenSuffix := none
  LeechOrDrainSuffix : Option LeechOrDrainSuffix := none
deriving DecidableEq

/-- `BaseCombatEvent` is the common header of every combat log line. -/
structure BaseCombatEvent where
  Timestamp : Int
  EventType : EventType
  SourceName : String
  SourceID : String
  TargetName : String
  TargetID : String
deriving DecidableEq

/-- `CombatLogRecord` composes the header with the prefix and suffix
aggregates (Go struct embedding becomes `extends`, so the promoted field
accessors keep their source names). -/
structure CombatLogRecord extends BaseCombatEvent, CombatPrefix, CombatSuffix
deriving DecidableEq

/-! ## `utils.go`: parsing helpers and field classifiers -/

/-- `mustParseInt` (`strconv.ParseInt(s, 10, 64)`); `none` is the abort. -/
def mustParseInt (s : String) : Option Int := ParseInt64 s

/-- `mustParseUint`: parses with `strconv.ParseInt` and converts the
signed result with `uint64(i)`. -/
def mustParseUint (s : String) : Option Nat := (ParseInt64 s).map toUint64

/-- `mustParseHexInt`: deletes every `"0x"` occurrence and hands the rest
to `mustParseUint` — which parses it as a DECIMAL string. -/
def mustParseHexInt (s : String) : Option Nat :=
  mustParseUint (strReplaceAll s "0x" "")

/-- `mustParseSpellSchool`: `0x`-prefixed fields go through
`mustParseHexInt`, everything else through `mustParseUint`; both results
are converted to the `int`-based `SpellSchool`. -/
def mustParseSpellSchool (s : String) : Option SpellSchool :=
  if strHasPrefix s "0x" then (mustParseHexInt s).map toInt64
  else (mustParseUint s).map toInt64

/-- `removeQuoteString`: strips every `"` character. -/
def removeQuoteString (s : String) : String := strReplaceAll s "\x22" ""

/-- `mustParseIntOrNil`: the `"nil"` sentinel maps to `0`, otherwise the
field is parsed as an unsigned integer. -/
def mustParseIntOrNil (s : String) : Option Nat :=
  if strContains s "nil" then some 0 else mustParseUint s

/-- `parseNilBool`: the `"nil"` sentinel and any `strconv.ParseBool`
error map to `false`; this function never fails. -/
def parseNilBool (s : String) : Bool :=
  if strContains s "nil" then false
  else
    match ParseBool s with
    | none => false
    | some b => b

/-- `sliceContains`: linear membership scan with `==`. -/
def sliceContains {T : Type} [DecidableEq T] (seq : List T) (v : T) : Bool :=
  match seq with
  | [] => false
  | x :: rest => if x = v then true else sliceContains rest v

/-- `isDamageEvent`. -/
def isDamageEvent (c : CombatLogRecord) : Bool :=
  sliceContains DamageEvents c.EventType

/-- `isHealingEvent`. -/
def isHealingEvent (c : CombatLogRecord) : Bool :=
  sliceContains HealEvents c.EventType

/-- `isOverlayEvent`. -/
def isOverlayEvent (c : CombatLogRecord) : Bool :=
  sliceContains OverlayEvents c.EventType

/-- `isBossName`: membership in the fixed boss-name list. -/
def isBossName (s : String) : Bool := sliceContains BossNames s

/-- `isBossID`: boss actor identifiers start with `0xF15`. -/
def isBossID (v : String) : Bool := strHasPrefix v "0xF15"

/-- `isNPCID`: NPC actor identifiers start with `0xF13`. -/
def isNPCID (v : String) : Bool := strHasPrefix v "0xF13"

/-- `isPlayerID`: player actor identifiers start with `0x07`. -/
def isPlayerID (v : String) : Bool := strHasPrefix v "0x07"

/-! ## `parser.go`: per-shape field extractors

Go indexes `eventParts[i]` directly and panics when the index is out of
range; the embedding threads `List.get?` through `Option.bind`. -/

/-- `parseSpellPrefix`: fields 7 (spell id), 8 (quoted spell name),
9 (spell school, decimal or `0x`-prefixed). -/
def parseSpellPrefix (eventParts : List String) : Option SpellAndRangePrefix :=
  (eventParts.get? 7).bind fun f7 =>
  (mustParseUint f7).bind fun spellId =>
  (eventParts.get? 8).bind fun f8 =>
  (eventParts.get? 9).bind fun f9 =>
  (mustParseSpellSchool f9).bind fun school =>
  some { SpellID := spellId, SpellName := removeQuoteString f8,
         SpellSchool := school }

/-- `parseDamageSuffix`: seven fields starting at `initialOffset`; the
resist/block/absorb fields accept the `"nil"` sentinel and the critical
flag goes through `parseNilBool`. -/
def parseDamageSuffix (eventParts : List String) (initialOffset : Nat) :
    Option DamageSuffix :=
  (eventParts.get? initialOffset).bind fun f0 =>
  (mustParseUint f0).bind fun amount =>
  (eventParts.get? (initialOffset + 1)).bind fun f1 =>
  (mustParseUint f1).bind fun overkill =>
  (eventParts.get? (initialOffset + 2)).bind fun f2 =>
  (mustParseInt f2).bind fun school =>
  (eventParts.get? (initialOffset + 3)).bind fun f3 =>
  (mustParseIntOrNil f3).bind fun resisted =>
  (eventParts.get? (initialOffset + 4)).bind fun f4 =>
  (mustParseIntOrNil f4).bind fun blocked =>
  (eventParts.get? (initialOffset + 5)).bind fun f5 =>
  (mustParseIntOrNil f5).bind fun absorbed =>
  (eventParts.get? (initialOffset + 6)).bind fun f6 =>
  some { Amount := amount, Overkill := overkill, SpellSchool := school,
         Resisted := resisted, Blocked := blocked, Absorbed := absorbed,
         Critical := parseNilBool f6 }

/-- `parseAuraSuffix`: field 10, quote-stripped. -/
def parseAuraSuffix (eventParts : List String) : Option AuraSuffix :=
  (eventParts.get? 10).bind fun f10 =>
  some { AuraType := removeQuoteString f10 }

/-- `parseEnergizeSuffix`: fields 10 (signed amount) and 11 (power type). -/
def parseEnergizeSuffix (eventParts : List String) : Option EnergizeSuffix :=
  (eventParts.get? 10).bind fun f10 =>
  (mustParseInt f10).bind fun amount =>
  (eventParts.get? 11).bind fun f11 =>
  (mustParseUint f11).bind fun power =>
  some { Amount := amount, PowerType := toInt64 power }

/-- `parseMissSuffix`: field 7, raw. -/
def parseMissSuffix (eventParts : List String) : Option MissSuffix :=
  (eventParts.get? 7).bind fun f7 =>
  some { MissType := f7 }

/-- `parseHealSuffix`: fields 10-12 unsigned, field 13 nil-tolerant bool. -/
def parseHealSuffix (eventParts : List String) : Option HealSuffix :=
  (eventParts.get? 10).bind fun f10 =>
  (mustParseUint f10).bind fun amount =>
  (eventParts.get? 11).bind fun f11 =>
  (mustParseUint f11).bind fun overhealing =>
  (eventParts.get? 12).bind fun f12 =>
  (mustParseUint f12).bind fun absorbed =>
  (eventParts.get? 13).bind fun f13 =>
  some { Amount := amount, Overhealing := overhealing,
         Absorbed := absorbed, Critical := parseNilBool f13 }

/-- `parseInterruptSuffix`: fields 10-12. -/
def parseInterruptSuffix (eventParts : List String) : Option InterruptSuffix :=
  (eventParts.get? 10).bind fun f10 =>
  (mustParseUint f10).bind fun extraId =>
  (eventParts.get? 11).bind fun f11 =>
  (eventParts.get? 12).bind fun f12 =>
  (mustParseUint f12).bind fun school =>
  some { ExtraSpellID := extraId, ExtraSpellName := removeQuoteString f11,
         ExtraSpellSchool := toInt64 school }

/-- `parseExtraAttackSuffix`: field 10. -/
def parseExtraAttackSuffix (eventParts : List String) :
    Option ExtraAttacksSuffix :=
  (eventParts.get? 10).bind fun f10 =>
  (mustParseUint f10).bind fun amount =>
  some { Amount := amount }

/-- `parseEnchantPrefix`: fields 7-9. -/
def parseEnchantPrefix (eventParts : List String) : Option EnchantPrefix :=
  (eventParts.get? 7).bind fun f7 =>
  (eventParts.get? 8).bind fun f8 =>
  (mustParseUint f8).bind fun itemId =>
  (eventParts.get? 9).bind fun f9 =>
  some { SpellName := removeQuoteString f7, ItemID := itemId,
         ItemName := removeQuoteString f9 }

/-- `parseDispellOrStolenSuffix`: fields 10-12. -/
def parseDispellOrStolenSuffix (eventParts : List String) :
    Option DispelOrStolenSuffix :=
  (eventParts.get? 10).bind fun f10 =>
  (mustParseUint f10).bind fun extraId =>
  (eventParts.get? 11).bind fun f11 =>
  (eventParts.get? 12).bind fun f12 =>
  (mustParseSpellSchool f12).bind fun school =>
  some { ExtraSpellID := extraId, ExtraSpellName := removeQuoteString f11,
         ExtraSpellSchool := school }

/-- `parseLeachOrDrainSuffix`: fields 10-12. -/
def parseLeachOrDrainSuffix (eventParts : List String) :
    Option LeechOrDrainSuffix :=
  (eventParts.get? 10).bind fun f10 =>
  (mustParseUint f10).bind fun amount =>
  (eventParts.get? 11).bind fun f11 =>
  (mustParseUint f11).bind fun power =>
  (eventParts.get? 12).bind fun f12 =>
  (mustParseUint f12).bind fun extraAmount =>
  some { Amount := amount, PowerType := toInt64 power,
         ExtraAmount := extraAmount }

/-- `parseEnvironmentalPrefix`: field 7, raw. -/
def parseEnvironmentalPrefix (eventParts : List String) :
    Option EnvironmentalPrefix :=
  (eventParts.get? 7).bind fun f7 =>
  some { EnvironmentalType := f7 }

/-- The `switch eventType` dispatch inside `parseRow`: selects which
prefix and suffix members to populate.  The default branch produces an
empty payload together with the `fmt.Println` diagnostic text (returned
as a list of emitted diagnostic lines). -/
def parsePayload (eventType : EventType) (eventParts : List String) :
    Option (CombatPrefix × CombatSuffix × List String) :=
  match eventType with
  | "UNIT_DIED" => some ({}, {}, [])
  | "SPELL_INSTAKILL" => some ({}, {}, [])
  | "PARTY_KILL" => some ({}, {}, [])
  | "SWING_DAMAGE" =>
    (parseDamageSuffix eventParts 7).bind fun d =>
    some ({}, { DamageSuffix := some d }, [])
  | "SPELL_DAMAGE" =>
    (parseSpellPrefix eventParts).bind fun p =>
    (parseDamageSuffix eventParts 10).bind fun d =>
    some ({ SpellAndRangePrefix := some p }, { DamageSuffix := some d }, [])
  | "SPELL_PERIODIC_DAMAGE" =>
    (parseSpellPrefix eventParts).bind fun p =>
    (parseDamageSuffix eventParts 10).bind fun d =>
    some ({ SpellAndRangePrefix := some p }, { DamageSuffix := some d }, [])
  | "DAMAGE_SHIELD" =>
    (parseSpellPrefix eventParts).bind fun p =>
    (parseDamageSuffix eventParts 10).bind fun d =>
    some ({ SpellAndRangePrefix := some p }, { DamageSuffix := some d }, [])
  | "DAMAGE_SPLIT" =>
    (parseSpellPrefix eventParts).bind fun p =>
    (parseDamageSuffix eventParts 10).bind fun d =>
    some ({ SpellAndRangePrefix := some p }, { DamageSuffix := some d }, [])
  | "SPELL_DRAIN" =>
    (parseSpellPrefix eventParts).bind fun p =>
    (parseLeachOrDrainSuffix eventParts).bind fun d =>
    some ({ SpellAndRangePrefix := some p },
          { LeechOrDrainSuffix := some d }, [])
  | "ENVIRONMENTAL_DAMAGE" =>
    (parseEnvironmentalPrefix eventParts).bind fun p =>
    (parseDamageSuffix eventParts 8).bind fun d =>
    some ({ EnvironmentalPrefix := some p }, { DamageSuffix := some d }, [])
  | "RANGE_MISSED" =>
    (parseSpellPrefix eventParts).bind fun p =>
    (parseMissSuffix eventParts).bind fun d =>
    some ({ SpellAndRangePrefix := some p }, { MissSuffix := some d }, [])
  | "SPELL_AURA_APPLIED" =>
    (parseSpellPrefix eventParts).bind fun p =>
    (parseAuraSuffix eventParts).bind fun d =>
    some ({ SpellAndRangePrefix := some p }, { AuraSuffix := some d }, [])
  | "SPELL_HEAL" =>
    (parseSpellPrefix eventParts).bind fun p =>
    (parseHealSuffix eventParts).bind fun d =>
    some ({ SpellAndRangePrefix := some p }, { HealSuffix := some d }, [])
  | "SPELL_AURA_REMOVED" =>
    (parseSpellPrefix eventParts).bind fun p =>
    (parseAuraSuffix eventParts).bind fun d =>
    some ({ SpellAndRangePrefix := some p }, { AuraSuffix := some d }, [])
  | "SPELL_CAST_START" =>
    (parseSpellPrefix eventParts).bind fun p =>
    some ({ SpellAndRangePrefix := some p }, {}, [])
  | "SPELL_CAST_FAILED" =>
    (parseSpellPrefix eventParts).bind fun p =>
    some ({ SpellAndRangePrefix := some p }, {}, [])
  | "SPELL_AURA_REFRESH" =>
    (parseSpellPrefix eventParts).bind fun p =>
    (parseAuraSuffix eventParts).bind fun d =>
    some ({ SpellAndRangePrefix := some p }, { AuraSuffix := some d }, [])
  | "SPELL_ENERGIZE" =>
    (parseSpellPrefix eventParts).bind fun p =>
    (parseEnergizeSuffix eventParts).bind fun d =>
    some ({ SpellAndRangePrefix := some p }, { EnergizeSuffix := some d }, [])
  | "SWING_MISSED" =>
    (parseMissSuffix eventParts).bind fun d =>
    some ({}, { MissSuffix := some d }, [])
  | "SPELL_AURA_APPLIED_DOSE" =>
    (parseSpellPrefix eventParts).bind fun p =>
    (parseAuraSuffix eventParts).bind fun d =>
    some ({ SpellAndRangePrefix := some p }, { AuraSuffix := some d }, [])
  | "SPELL_PERIODIC_ENERGIZE" =>
    (parseSpellPrefix eventParts).bind fun p =>
    (parseEnergizeSuffix eventParts).bind fun d =>
    some ({ SpellAndRangePrefix := some p }, { EnergizeSuffix := some d }, [])
  | "SPELL_PERIODIC_HEAL" =>
    (parseSpellPrefix eventParts).bind fun p =>
    (parseHealSuffix eventParts).bind fun d =>
    some ({ SpellAndRangePrefix := some p }, { HealSuffix := some d }, [])
  | "SPELL_INTERRUPT" =>
    (parseSpellPrefix eventParts).bind fun p =>
    (parseInterruptSuffix eventParts).bind fun d =>
    some ({ SpellAndRangePrefix := some p }, { InterruptSuffix := some d }, [])
  | "SPELL_MISSED" =>
    (parseSpellPrefix eventParts).bind fun p =>
    (parseMissSuffix eventParts).bind fun d =>
    some ({ SpellAndRangePrefix := some p }, { MissSuffix := some d }, [])
  | "SPELL_CREATE" =>
    (parseSpellPrefix eventParts).bind fun p =>
    some ({ SpellAndRangePrefix := some p }, {}, [])
  | "RANGE_DAMAGE" =>
    (parseSpellPrefix eventParts).bind fun p =>
    (parseDamageSuffix eventParts 10).bind fun d =>
    some ({ SpellAndRangePrefix := some p }, { DamageSuffix := some d }, [])
  | "SPELL_EXTRA_ATTACKS" =>
    (parseSpellPrefix eventParts).bind fun p =>
    (parseExtraAttackSuffix eventParts).bind fun d =>
    some ({ SpellAndRangePrefix := some p },
          { ExtraAttacksSuffix := some d }, [])
  | "SPELL_PERIODIC_MISSED" =>
    (parseSpellPrefix eventParts).bind fun p =>
    (parseMissSuffix eventParts).bind fun d =>
    some ({ SpellAndRangePrefix := some p }, { MissSuffix := some d }, [])
  | "SPELL_AURA_REMOVED_DOSE" =>
    (parseSpellPrefix eventParts).bind fun p =>
    some ({ SpellAndRangePrefix := some p }, {}, [])
  | "ENCHANT_APPLIED" =>
    (parseEnchantPrefix eventParts).bind fun p =>
    some ({ EnchantPrefix := some p }, {}, [])
  | "ENCHANT_REMOVED" =>
    (parseEnchantPrefix eventParts).bind fun p =>
    some ({ EnchantPrefix := some p }, {}, [])
  | "SPELL_RESURRECT" =>
    (parseSpellPrefix eventParts).bind fun p =>
    some ({ SpellAndRangePrefix := some p }, {}, [])
  | "SPELL_DISPEL" =>
    (parseSpellPrefix eventParts).bind fun p =>
    (parseDispellOrStolenSuffix eventParts).bind fun d =>
    some ({ SpellAndRangePrefix := some p },
          { DispelOrStolenSuffix := some d }, [])
  | "DAMAGE_SHIELD_MISSED" =>
    (parseSpellPrefix eventParts).bind fun p =>
    (parseMissSuffix eventParts).bind fun d =>
    some ({ SpellAndRangePrefix := some p }, { MissSuffix := some d }, [])
  | "SPELL_PERIODIC_LEECH" =>
    (parseSpellPrefix eventParts).bind fun p =>
    (parseLeachOrDrainSuffix eventParts).bind fun d =>
    some ({ SpellAndRangePrefix := some p },
          { LeechOrDrainSuffix := some d }, [])
  | "SPELL_SUMMON" =>
    (parseSpellPrefix eventParts).bind fun p =>
    some ({ SpellAndRangePrefix := some p }, {}, [])
  | "SPELL_CAST_SUCCESS" =>
    (parseSpellPrefix eventParts).bind fun p =>
    some ({ SpellAndRangePrefix := some p }, {}, [])
  | _ => some ({}, {}, ["unknown eventType:  " ++ eventType])

/-- The event-type tags handled by the `parseRow` switch (every
non-default case label). -/
def handledEventTypes : List EventType :=
  [UnitDied, SpellInstakill, PartyKill, SwingDamage, SpellDamage,
   SpellPeriodicDamage, DamageShield, DamageSplit, SpellDrain,
   EnvironmentalDamage, RangeMissed, SpellAuraApplied, SpellHeal,
   SpellAuraRemoved, SpellCastStart, SpellCastFailed, SpellAuraRefresh,
   SpellEnergize, SwingMissed, SpellAuraAppliedDose,
   SpellPeriodicEnergize, SpellPeriodicHeal, SpellInterrupt, SpellMissed,
   SpellCreate, RangeDamage, SpellExtraAttacks, SpellPeriodicMissed,
   SpellAuraRemovedDose, EnchantApplied, EnchantRemoved, SpellResurrect,
   SpellDispell, DamageShieldMissed, SpellPeriodicLeech, SpellSummon,
   SpellCastSuccess]

/-- `parseRow`: split the line on the double-space separator, prepend the
reference year to the timestamp segment, split the event segment on
commas, build the header from fields 0-5 (names quote-stripped), and
dispatch on the event type for the payload.  The second component
collects diagnostic output (the default branch's `fmt.Println`). -/
def parseRow (year : Nat) (data : String) :
    Option (CombatLogRecord × List String) :=
  let s := strSplit data "  "
  (s.get? 0).bind fun s0 =>
  (s.get? 1).bind fun s1 =>
  (mustParseTimestamp (toString year ++ "/" ++ s0)).bind fun t =>
  let eventParts := strSplit s1 ","
  (eventParts.get? 0).bind fun f0 =>
  (eventParts.get? 1).bind fun f1 =>
  (eventParts.get? 2).bind fun f2 =>
  (eventParts.get? 4).bind fun f4 =>
  (eventParts.get? 5).bind fun f5 =>
  let be : BaseCombatEvent :=
    { Timestamp := t, EventType := f0, SourceID := f1,
      SourceName := strReplaceAll f2 "\x22" "", TargetID := f4,
      TargetName := strReplaceAll f5 "\x22" "" }
  (parsePayload f0 eventParts).bind fun payload =>
  some ({ toBaseCombatEvent := be, toCombatPrefix := payload.1,
          toCombatSuffix := payload.2.1 }, payload.2.2)

/-- The line loop of `Parser.Parse`: parse every line in order; a failed
line aborts the whole parse with no partial result (the Go loop lets the
underlying `must...` abort propagate). -/
def parseAllRows (year : Nat) : List String → Option (List CombatLogRecord)
  | [] => some []
  | l :: rest =>
    match parseRow year l with
    | none => none
    | some (r, _) =>
      match parseAllRows year rest with
      | none => none
      | some rs => some (r :: rs)

/-! ## `summary.go`: the aggregation engine

Go `map[string]uint64` / `map[time.Time]uint64` accumulators become total
functions with default `0`; `+=` on a `uint64` map entry becomes `mapAdd`
(wrap-around addition at the key).  `map[string]Encounter` becomes a
function into `Option Encounter` (missing key = `none`). -/

/-- `Encounter`: observed first/last bucketed timestamps for a boss. -/
structure Encounter where
  StartTime : Int
  EndTime : Int
deriving DecidableEq

/-- `SummaryStats`: the aggregation accumulator. -/
structure SummaryStats where
  DamageDoneOverTime : Int → Nat
  HealingpDoneOverTime : Int → Nat
  DamageTakenOverTime : Int → Nat
  EncounterOverlays : String → Option Encounter
  DamageBySource : String → Nat
  HealingBySource : String → Nat
  DamageTakenBySource : String → Nat
  DamageTakenBySpell : String → Nat
  InterruptsBySource : String → Nat
  DispellsBySource : String → Nat

/-- Go `m[k] += v` on a `uint64`-valued map: add modulo `2 ^ 64` at `k`,
leave every other key unchanged. -/
def mapAdd {κ : Type} [DecidableEq κ] (m : κ → Nat) (k : κ) (v : Nat) :
    κ → Nat :=
  fun x => if x = k then (m x + v) % U64MOD else m x

/-- Go `t.Truncate(d)`: round the instant down to a multiple of the
resolution (and leave it unchanged for a non-positive resolution). -/
def truncate (t res : Int) : Int := if res ≤ 0 then t else t - Int.emod t res

/-- The fresh accumulator allocated at the top of `Collector.Run`. -/
def emptyStats : SummaryStats where
  DamageDoneOverTime := fun _ => 0
  HealingpDoneOverTime := fun _ => 0
  DamageTakenOverTime := fun _ => 0
  EncounterOverlays := fun _ => none
  DamageBySource := fun _ => 0
  HealingBySource := fun _ => 0
  DamageTakenBySource := fun _ => 0
  DamageTakenBySpell := fun _ => 0
  InterruptsBySource := fun _ => 0
  DispellsBySource := fun _ => 0

/-- The `amount` selection at the top of the damage branch of
`handleEvent`: extra-attack amount if present, else damage amount if
present, else `0`. -/
def damageAmount (row : CombatLogRecord) : Nat :=
  match row.ExtraAttacksSuffix with
  | some e => e.Amount
  | none =>
    match row.DamageSuffix with
    | some d => d.Amount
    | none => 0

/-- The damage-taken test of `handleEvent`, written exactly as in Go:
`(isBossID(SourceID) || isNPCID(SourceID)) && isPlayerID(TargetID)`. -/
def dmgTakenCond (row : CombatLogRecord) : Bool :=
  (isBossID row.SourceID || isNPCID row.SourceID) && isPlayerID row.TargetID

/-- The damage-done test of `handleEvent`, written exactly as in Go:
`isPlayerID(SourceID) && isNPCID(TargetID) || isBossID(TargetID)`, where
Go's `&&` binds tighter than `||`. -/
def dmgDoneCond (row : CombatLogRecord) : Bool :=
  isPlayerID row.SourceID && isNPCID row.TargetID || isBossID row.TargetID

/-- The boss-encounter update at the top of the damage branch of
`handleEvent`: when the target name is a recognized boss, create or
extend that boss's encounter span at the truncated timestamp. -/
def bossEncounterStep (c : SummaryStats) (row : CombatLogRecord)
    (resolution : Int) : SummaryStats :=
  if isBossName row.TargetName then
    let now := truncate row.Timestamp resolution
    let encounter :=
      match c.EncounterOverlays row.TargetName with
      | none => { StartTime := now, EndTime := now : Encounter }
      | some e => { e with EndTime := now }
    { c with EncounterOverlays :=
        fun k => if k = row.TargetName then some encounter
                 else c.EncounterOverlays k }
  else c

/-- `SummaryStats.handleEvent`: per-record aggregation.  `none` models
the nil-pointer dereference that Go performs in the healing branch when
`HealSuffix` is absent. -/
def handleEvent (c : SummaryStats) (row : CombatLogRecord)
    (resolution : Int) : Option SummaryStats :=
  if isDamageEvent row then
    let amount := damageAmount row
    let c1 := bossEncounterStep c row resolution
    if dmgTakenCond row then
      some { c1 with
        DamageTakenBySource :=
          mapAdd c1.DamageTakenBySource row.SourceName amount,
        DamageTakenOverTime :=
          mapAdd c1.DamageTakenOverTime
            (truncate row.Timestamp resolution) amount,
        DamageTakenBySpell :=
          match row.SpellAndRangePrefix with
          | some p => mapAdd c1.DamageTakenBySpell p.SpellName amount
          | none => c1.DamageTakenBySpell }
    else if dmgDoneCond row then
      some { c1 with
        DamageBySource := mapAdd c1.DamageBySource row.SourceName amount,
        DamageDoneOverTime :=
          mapAdd c1.DamageDoneOverTime
            (truncate row.Timestamp resolution) amount }
    else some c1
  else if isHealingEvent row then
    if isPlayerID row.SourceID then
      match row.HealSuffix with
      | none => none
      | some h =>
        some { c with
          HealingBySource := mapAdd c.HealingBySource row.SourceName h.Amount,
          HealingpDoneOverTime :=
            mapAdd c.HealingpDoneOverTime
              (truncate row.Timestamp resolution) h.Amount }
    else some c
  else if isOverlayEvent row then
    some { c with
      DispellsBySource := mapAdd c.DispellsBySource row.SourceName 1,
      InterruptsBySource := mapAdd c.InterruptsBySource row.SourceName 1 }
  else some c

/-- The record loop of `Collector.Run`, threading the accumulator. -/
def runAux (res : Int) (s : SummaryStats) :
    List CombatLogRecord → Option SummaryStats
  | [] => some s
  | r :: rest =>
    match handleEvent s r res with
    | none => none
    | some s2 => runAux res s2 rest

/-- `Collector.Run`: fold `handleEvent` over the record sequence starting
from a fresh accumulator (the collector's configured `TimeResolution` is
the `res` argument, in milliseconds). -/
def Run (res : Int) (data : List CombatLogRecord) : Option SummaryStats :=
  runAux res emptyStats data

/-! ## Analysis definitions

Derived notions used to state the properties: payload-shape observation,
the spec's fixed shape table, per-record accumulator deltas, and the
condition under which `handleEvent` aborts. -/

/-- Which prefix members are populated: spell/range, enchant,
environmental. -/
def prefixShape (p : CombatPrefix) : List Bool :=
  [p.SpellAndRangePrefix.isSome, p.EnchantPrefix.isSome,
   p.EnvironmentalPrefix.isSome]

/-- Which suffix members are populated: damage, aura, energize, miss,
heal, interrupt, extra-attacks, dispel/stolen, leech/drain. -/
def suffixShape (s : CombatSuffix) : List Bool :=
  [s.DamageSuffix.isSome, s.AuraSuffix.isSome, s.EnergizeSuffix.isSome,
   s.MissSuffix.isSome, s.HealSuffix.isSome, s.InterruptSuffix.isSome,
   s.ExtraAttacksSuffix.isSome, s.DispelOrStolenSuffix.isSome,
   s.LeechOrDrainSuffix.isSome]

/-- Prefix mask: no prefix populated. -/
def noPfx : List Bool := [false, false, false]

/-- Prefix mask: exactly the spell/range prefix. -/
def spellPfx : List Bool := [true, false, false]

/-- Prefix mask: exactly the enchant prefix. -/
def enchantPfx : List Bool := [false, true, false]

/-- Prefix mask: exactly the environmental prefix. -/
def envPfx : List Bool := [false, false, true]

/-- Suffix mask: no suffix populated. -/
def noSfx : List Bool :=
  [false, false, false, false, false, false, false, false, false]

/-- Suffix mask: exactly the damage suffix. -/
def dmgSfx : List Bool :=
  [true, false, false, false, false, false, false, false, false]

/-- Suffix mask: exactly the aura suffix. -/
def auraSfx : List Bool :=
  [false, true, false, false, false, false, false, false, false]

/-- Suffix mask: exactly the energize suffix. -/
def energizeSfx : List Bool :=
  [false, false, true, false, false, false, false, false, false]

/-- Suffix mask: exactly the miss suffix. -/
def missSfx : List Bool :=
  [false, false, false, true, false, false, false, false, false]

/-- Suffix mask: exactly the heal suffix. -/
def healSfx : List Bool :=
  [false, false, false, false, true, false, false, false, false]

/-- Suffix mask: exactly the interrupt suffix. -/
def interruptSfx : List Bool :=
  [false, false, false, false, false, true, false, false, false]

/-- Suffix mask: exactly the extra-attacks suffix. -/
def extraSfx : List Bool :=
  [false, false, false, false, false, false, true, false, false]

/-- Suffix mask: exactly the dispel/stolen suffix. -/
def dispelSfx : List Bool :=
  [false, false, false, false, false, false, false, true, false]

/-- Suffix mask: exactly the leech/drain suffix. -/
def leechSfx : List Bool :=
  [false, false, false, false, false, false, false, false, true]

/-- The fixed prefix/suffix combination required for each recognized
event type — the static lookup table of the record-model contract (spec
§4.2/§4.3), stated independently of the parser's dispatch so the two can
be compared. -/
def expectedPayloadShape (et : EventType) : List Bool × List Bool :=
  match et with
  | "UNIT_DIED" => (noPfx, noSfx)
  | "SPELL_INSTAKILL" => (noPfx, noSfx)
  | "PARTY_KILL" => (noPfx, noSfx)
  | "SWING_DAMAGE" => (noPfx, dmgSfx)
  | "SPELL_DAMAGE" => (spellPfx, dmgSfx)
  | "SPELL_PERIODIC_DAMAGE" => (spellPfx, dmgSfx)
  | "DAMAGE_SHIELD" => (spellPfx, dmgSfx)
  | "DAMAGE_SPLIT" => (spellPfx, dmgSfx)
  | "SPELL_DRAIN" => (spellPfx, leechSfx)
  | "ENVIRONMENTAL_DAMAGE" => (envPfx, dmgSfx)
  | "RANGE_MISSED" => (spellPfx, missSfx)
  | "SPELL_AURA_APPLIED" => (spellPfx, auraSfx)
  | "SPELL_HEAL" => (spellPfx, healSfx)
  | "SPELL_AURA_REMOVED" => (spellPfx, auraSfx)
  | "SPELL_CAST_START" => (spellPfx, noSfx)
  | "SPELL_CAST_FAILED" => (spellPfx, noSfx)
  | "SPELL_AURA_REFRESH" => (spellPfx, auraSfx)
  | "SPELL_ENERGIZE" => (spellPfx, energizeSfx)
  | "SWING_MISSED" => (noPfx, missSfx)
  | "SPELL_AURA_APPLIED_DOSE" => (spellPfx, auraSfx)
  | "SPELL_PERIODIC_ENERGIZE" => (spellPfx, energizeSfx)
  | "SPELL_PERIODIC_HEAL" => (spellPfx, healSfx)
  | "SPELL_INTERRUPT" => (spellPfx, interruptSfx)
  | "SPELL_MISSED" => (spellPfx, missSfx)
  | "SPELL_CREATE" => (spellPfx, noSfx)
  | "RANGE_DAMAGE" => (spellPfx, dmgSfx)
  | "SPELL_EXTRA_ATTACKS" => (spellPfx, extraSfx)
  | "SPELL_PERIODIC_MISSED" => (spellPfx, missSfx)
  | "SPELL_AURA_REMOVED_DOSE" => (spellPfx, noSfx)
  | "ENCHANT_APPLIED" => (enchantPfx, noSfx)
  | "ENCHANT_REMOVED" => (enchantPfx, noSfx)
  | "SPELL_RESURRECT" => (spellPfx, noSfx)
  | "SPELL_DISPEL" => (spellPfx, dispelSfx)
  | "DAMAGE_SHIELD_MISSED" => (spellPfx, missSfx)
  | "SPELL_PERIODIC_LEECH" => (spellPfx, leechSfx)
  | "SPELL_SUMMON" => (spellPfx, noSfx)
  | "SPELL_CAST_SUCCESS" => (spellPfx, noSfx)
  | _ => (noPfx, noSfx)

/-- The (state-independent) condition under which `handleEvent` hits the
nil `HealSuffix` dereference and aborts. -/
def badHeal (row : CombatLogRecord) : Bool :=
  !isDamageEvent row && isHealingEvent row && isPlayerID row.SourceID &&
    row.HealSuffix.isNone

/-- The heal amount read in the healing branch (0 when absent; only used
when the suffix is present). -/
def healAmount (row : CombatLogRecord) : Nat :=
  match row.HealSuffix with
  | some h => h.Amount
  | none => 0

/-- Per-record contribution of `handleEvent` to `DamageBySource` at a
key. -/
def deltaDamageBySource (row : CombatLogRecord) (k : String) : Nat :=
  if isDamageEvent row = true ∧ dmgTakenCond row = false ∧
      dmgDoneCond row = true ∧ k = row.SourceName then
    damageAmount row
  else 0

/-- Per-record contribution to `DamageTakenBySource` at a key. -/
def deltaDamageTakenBySource (row : CombatLogRecord) (k : String) : Nat :=
  if isDamageEvent row = true ∧ dmgTakenCond row = true ∧
      k = row.SourceName then
    damageAmount row
  else 0

/-- Per-record contribution to `DamageTakenBySpell` at a key. -/
def deltaDamageTakenBySpell (row : CombatLogRecord) (k : String) : Nat :=
  match row.SpellAndRangePrefix with
  | some p =>
    if isDamageEvent row = true ∧ dmgTakenCond row = true ∧
        k = p.SpellName then
      damageAmount row
    else 0
  | none => 0

/-- Per-record contribution to `HealingBySource` at a key. -/
def deltaHealingBySource (row : CombatLogRecord) (k : String) : Nat :=
  if isDamageEvent row = false ∧ isHealingEvent row = true ∧
      isPlayerID row.SourceID = true ∧ k = row.SourceName then
    healAmount row
  else 0

/-- Per-record contribution to `InterruptsBySource` at a key. -/
def deltaInterruptsBySource (row : CombatLogRecord) (k : String) : Nat :=
  if isDamageEvent row = false ∧ isHealingEvent row = false ∧
      isOverlayEvent row = true ∧ k = row.SourceName then 1
  else 0

/-- Per-record contribution to `DispellsBySource` at a key. -/
def deltaDispellsBySource (row : CombatLogRecord) (k : String) : Nat :=
  if isDamageEvent row = false ∧ isHealingEvent row = false ∧
      isOverlayEvent row = true ∧ k = row.SourceName then 1
  else 0

/-- All six per-source/per-spell total maps hold values below `2 ^ 64`
(the invariant maintained from the empty accumulator onwards). -/
def BoundedTotals (s : SummaryStats) : Prop :=
  (∀ k, s.DamageBySource k < U64MOD) ∧
  (∀ k, s.HealingBySource k < U64MOD) ∧
  (∀ k, s.DamageTakenBySource k < U64MOD) ∧
  (∀ k, s.DamageTakenBySpell k < U64MOD) ∧
  (∀ k, s.InterruptsBySource k < U64MOD) ∧
  (∀ k, s.DispellsBySource k < U64MOD)

/-- Concrete record: an NPC-sourced swing against a boss-ID target. -/
def npcOnBossRow : CombatLogRecord :=
  { Timestamp := 0, EventType := SwingDamage, SourceName := "Skeleton",
    SourceID := "0xF130000000000001", TargetName := "Target",
    TargetID := "0xF150000000000001",
    DamageSuffix := some { Amount := 100, Overkill := 0, SpellSchool := 1,
                           Resisted := 0, Blocked := 0, Absorbed := 0,
                           Critical := false } }

/-- Concrete record with the leech event type (in both the damage and
the heal event sets). -/
def leechRow : CombatLogRecord :=
  { Timestamp := 0, EventType := SpellPeriodicLeech, SourceName := "A",
    SourceID := "0x0700000000000001", TargetName := "B",
    TargetID := "0xF130000000000002" }

/-- Concrete overlay-category record (aura application). -/
def auraRow : CombatLogRecord :=
  { Timestamp := 0, EventType := SpellAuraApplied, SourceName := "Caster",
    SourceID := "0x0700000000000001", TargetName := "T",
    TargetID := "0x0700000000000002" }

/-- Concrete player-sourced swing against an NPC (for the permutation
witness). -/
def permRowA : CombatLogRecord :=
  { Timestamp := 1000, EventType := SwingDamage, SourceName := "P1",
    SourceID := "0x0700000000000001", TargetName := "Skel",
    TargetID := "0xF130000000000002",
    DamageSuffix := some { Amount := 500, Overkill := 0, SpellSchool := 1,
                           Resisted := 0, Blocked := 0, Absorbed := 0,
                           Critical := false } }

/-- Concrete player-sourced heal (for the permutation witness). -/
def permRowB : CombatLogRecord :=
  { Timestamp := 65000, EventType := SpellHeal, SourceName := "P2",
    SourceID := "0x0700000000000003", TargetName := "P3",
    TargetID := "0x0700000000000004",
    SpellAndRangePrefix := some { SpellID := 1, SpellName := "H",
                                  SpellSchool := 2 },
    HealSuffix := some { Amount := 300, Overhealing := 0, Absorbed := 0,
                         Critical := false } }

/-! ## Shared lemmas -/

/-- `sliceContains` agrees with list membership. -/
theorem sliceContains_iff {T : Type} [DecidableEq T] (l : List T) (v : T) :
    sliceContains l v = true ↔ v ∈ l := by
  induction l with
  | nil => simp [sliceContains]
  | cons x rest ih =>
    simp only [sliceContains, List.mem_cons]
    by_cases h : x = v
    · simp [h]
    · simp only [if_neg h, ih]
      constructor
      · exact fun hv => Or.inr hv
      · rintro (rfl | hv)
        · exact absurd rfl h
        · exact hv

/-- An overlay event type is in none of the damage events. -/
theorem overlay_not_damage (row : CombatLogRecord)
    (h : isOverlayEvent row = true) : isDamageEvent row = false := by
  have hmem := (sliceContains_iff OverlayEvents row.EventType).mp h
  simp only [OverlayEvents, List.mem_cons, List.not_mem_nil, or_false]
    at hmem
  unfold isDamageEvent
  rcases hmem with h1 | h1 | h1 | h1 | h1 | h1 | h1 | h1 <;>
    rw [h1] <;> decide

/-- An overlay event type is in none of the heal events. -/
theorem overlay_not_heal (row : CombatLogRecord)
    (h : isOverlayEvent row = true) : isHealingEvent row = false := by
  have hmem := (sliceContains_iff OverlayEvents row.EventType).mp h
  simp only [OverlayEvents, List.mem_cons, List.not_mem_nil, or_false]
    at hmem
  unfold isHealingEvent
  rcases hmem with h1 | h1 | h1 | h1 | h1 | h1 | h1 | h1 <;>
    rw [h1] <;> decide

/-! ## C1 — attribution condition of the damage-done branch -/

/-- C1 (code evaluation at the failing input): an NPC-sourced swing on a
boss-ID target — a source/target combination the spec says must leave
both damage-done totals unchanged — is nevertheless added to the NPC
source's `DamageBySource` and to the `DamageDoneOverTime` bucket, because
Go parses the branch condition as
`(isPlayerID(src) && isNPCID(tgt)) || isBossID(tgt)`. -/
theorem npc_source_counted_as_damage_done :
    isPlayerID npcOnBossRow.SourceID = false ∧
    (handleEvent emptyStats npcOnBossRow 30000).map
        (fun s => (s.DamageBySource "Skeleton", s.DamageDoneOverTime 0)) =
      some (100, 100) := by
  constructor
  · decide
  · rfl

/-! ## C2 — hexadecimal versus decimal spell-school fields -/

/-- C2 (code evaluation at the failing input): `mustParseSpellSchool`
maps `"0x10"` to `10` — `mustParseHexInt` strips the `0x` and parses the
remaining digits as decimal — while `"16"` parses to `16`, so the two
spellings of sixteen disagree. -/
theorem hex_school_parsed_as_decimal :
    mustParseSpellSchool "0x10" = some 10 ∧
    mustParseSpellSchool "16" = some 16 ∧
    mustParseSpellSchool "0x10" ≠ mustParseSpellSchool "16" := by
  refine ⟨rfl, rfl, ?_⟩
  decide

/-! ## C3 — pairwise disjointness of the three event-type sets -/

/-- C3 counterexample: for a `SPELL_PERIODIC_LEECH` record both
`isDamageEvent` and `isHealingEvent` hold, so the three category
predicates are not mutually exclusive and `DamageEvents`, `HealEvents`
are not disjoint. -/
theorem damage_and_heal_sets_overlap :
    isDamageEvent leechRow = true ∧ isHealingEvent leechRow = true := by
  decide

/-- C3 amended: the overlay set is disjoint from both other sets, and
the only event type in both the damage and the heal sets is
`SPELL_PERIODIC_LEECH`; because `handleEvent` tests the damage branch
first and returns, the three branches remain mutually exclusive in
effect. -/
theorem event_category_overlap_only_leech (row : CombatLogRecord) :
    (isOverlayEvent row = true →
      isDamageEvent row = false ∧ isHealingEvent row = false) ∧
    (isDamageEvent row = true → isHealingEvent row = true →
      row.EventType = SpellPeriodicLeech) := by
  constructor
  · intro h
    exact ⟨overlay_not_damage row h, overlay_not_heal row h⟩
  · intro hd hh
    have hmem := (sliceContains_iff HealEvents row.EventType).mp hh
    have hdm : sliceContains DamageEvents row.EventType = true := hd
    simp only [HealEvents, List.mem_cons, List.not_mem_nil, or_false]
      at hmem
    rcases hmem with h1 | h1 | h1
    · rw [h1] at hdm; exact absurd hdm (by decide)
    · rw [h1] at hdm; exact absurd hdm (by decide)
    · exact h1

/-- C3 amended, witness: instantiations at the leech record and at an
overlay record. -/
theorem event_category_overlap_only_leech_witness :
    leechRow.EventType = SpellPeriodicLeech ∧
    (isDamageEvent auraRow = false ∧ isHealingEvent auraRow = false) :=
  ⟨(event_category_overlap_only_leech leechRow).2 (by decide) (by decide),
   (event_category_overlap_only_leech auraRow).1 (by decide)⟩

/-! ## C9 — overlay events bump both counters -/

/-- C9: processing an overlay-category record unconditionally adds one
(mod `2 ^ 64`) to the source's dispel count and to the source's
interrupt count, and leaves every other `SummaryStats` mapping
unchanged. -/
theorem overlay_event_double_counts (c : SummaryStats)
    (row : CombatLogRecord) (res : Int) (h : isOverlayEvent row = true) :
    handleEvent c row res =
      some { c with
        DispellsBySource := mapAdd c.DispellsBySource row.SourceName 1,
        InterruptsBySource :=
          mapAdd c.InterruptsBySource row.SourceName 1 } := by
  have hd := overlay_not_damage row h
  have hh := overlay_not_heal row h
  simp [handleEvent, hd, hh, h]

/-- C9 witness: the overlay update applied to the empty accumulator at a
concrete aura record. -/
theorem overlay_event_double_counts_witness :
    handleEvent emptyStats auraRow 30000 =
      some { emptyStats with
        DispellsBySource := mapAdd emptyStats.DispellsBySource "Caster" 1,
        InterruptsBySource :=
          mapAdd emptyStats.InterruptsBySource "Caster" 1 } :=
  overlay_event_double_counts emptyStats auraRow 30000 (by decide)

/-! ## C5 — the "nil" sentinel never causes a structural failure -/

/-- List indexing past an appended block. -/
theorem get_append_shift {α : Type} (pre l : List α) (k : Nat) :
    (pre ++ l).get? (pre.length + k) = l.get? k := by
  induction pre with
  | nil => simp
  | cons x rest ih => simpa [Nat.succ_add] using ih

/-- List indexing at the very start of an appended block. -/
theorem get_append_start {α : Type} (pre l : List α) :
    (pre ++ l).get? pre.length = l.get? 0 := by
  simpa using get_append_shift pre l 0

/-- C5: a field string containing the `"nil"` sentinel parses to `0`
through `mustParseIntOrNil` and to `false` through `parseNilBool`, and a
damage suffix whose resist/block/absorb/critical fields all carry such
sentinels parses successfully — with those fields zero/`false` — whenever
its three leading numeric fields parse. -/
theorem nil_sentinel_fields_parse (s3 s4 s5 s6 : String)
    (h3 : strContains s3 "nil" = true) (h4 : strContains s4 "nil" = true)
    (h5 : strContains s5 "nil" = true)
    (h6 : strContains s6 "nil" = true) :
    (mustParseIntOrNil s3 = some 0 ∧ parseNilBool s6 = false) ∧
    ∀ (pre : List String) (a o sc : String) (rest : List String)
      (av ov : Nat) (sv : Int),
      mustParseUint a = some av → mustParseUint o = some ov →
      mustParseInt sc = some sv →
      parseDamageSuffix
          (pre ++ a :: o :: sc :: s3 :: s4 :: s5 :: s6 :: rest)
          pre.length =
        some { Amount := av, Overkill := ov, SpellSchool := sv,
               Resisted := 0, Blocked := 0, Absorbed := 0,
               Critical := false } := by
  constructor
  · exact ⟨by simp [mustParseIntOrNil, h3], by simp [parseNilBool, h6]⟩
  · intro pre a o sc rest av ov sv ha ho hsc
    unfold parseDamageSuffix
    rw [get_append_start, get_append_shift pre _ 1,
        get_append_shift pre _ 2, get_append_shift pre _ 3,
        get_append_shift pre _ 4, get_append_shift pre _ 5,
        get_append_shift pre _ 6]
    simp [ha, ho, hsc, mustParseIntOrNil, h3, h4, h5, parseNilBool, h6]

/-- C5 witness: the damage suffix of a swing line with every optional
modifier field set to a sentinel string containing `"nil"`. -/
theorem nil_sentinel_fields_parse_witness :
    mustParseIntOrNil "nil" = some 0 ∧
    parseDamageSuffix
        ["SWING_DAMAGE", "s", "n", "f", "t", "n2", "f2",
         "450", "0", "1", "nil", "nil", "(nil)", "nil"] 7 =
      some { Amount := 450, Overkill := 0, SpellSchool := 1,
             Resisted := 0, Blocked := 0, Absorbed := 0,
             Critical := false } :=
  ⟨((nil_sentinel_fields_parse "nil" "nil" "(nil)" "nil"
      rfl rfl rfl rfl).1).1,
   (nil_sentinel_fields_parse "nil" "nil" "(nil)" "nil"
      rfl rfl rfl rfl).2
     ["SWING_DAMAGE", "s", "n", "f", "t", "n2", "f2"]
     "450" "0" "1" [] 450 0 1 rfl rfl rfl⟩

/-! ## C4 — payload shape is a function of the event type -/

/-- Destructuring a two-step `Option.bind` chain producing a payload
triple: on success the prefix and suffix are the images of the two bound
values. -/
theorem bind2_shape {α β γ δ ε : Type} {x : Option α} {y : Option β}
    {f : α → γ} {g : β → δ} {d0 : ε} {pfx : γ} {sfx : δ} {d : ε}
    (h : (x.bind fun a => (y.bind fun b => some (f a, g b, d0))) =
      some (pfx, sfx, d)) :
    ∃ a b, pfx = f a ∧ sfx = g b := by
  cases x with
  | none => exact Option.noConfusion h
  | some a =>
    cases y with
    | none => exact Option.noConfusion h
    | some b =>
      have h2 := Option.some.inj h
      exact ⟨a, b, (congrArg (fun z => z.1) h2).symm,
             (congrArg (fun z => z.2.1) h2).symm⟩

/-- Destructuring a one-step `Option.bind` producing a payload triple. -/
theorem bind1_shape {α γ δ ε : Type} {x : Option α} {f : α → γ}
    {g : α → δ} {d0 : ε} {pfx : γ} {sfx : δ} {d : ε}
    (h : (x.bind fun a => some (f a, g a, d0)) = some (pfx, sfx, d)) :
    ∃ a, pfx = f a ∧ sfx = g a := by
  cases x with
  | none => exact Option.noConfusion h
  | some a =>
    have h2 := Option.some.inj h
    exact ⟨a, (congrArg (fun z => z.1) h2).symm,
           (congrArg (fun z => z.2.1) h2).symm⟩

/-- Destructuring a constant payload triple. -/
theorem const_shape {γ δ ε : Type} {p0 pfx : γ} {s0 sfx : δ} {d0 d : ε}
    (h : (some (p0, s0, d0) : Option (γ × δ × ε)) = some (pfx, sfx, d)) :
    pfx = p0 ∧ sfx = s0 := by
  have h2 := Option.some.inj h
  exact ⟨(congrArg (fun z => z.1) h2).symm,
         (congrArg (fun z => z.2.1) h2).symm⟩

/-- For every recognized event type, a successfully parsed payload
populates exactly the prefix member and exactly the suffix member that
the fixed shape table prescribes for that event type. -/
theorem parsePayload_shape (et : EventType)
    (eventParts : List String) (pfx : CombatPrefix) (sfx : CombatSuffix)
    (ds : List String) (hmem : et ∈ handledEventTypes)
    (hp : parsePayload et eventParts = some (pfx, sfx, ds)) :
    prefixShape pfx = (expectedPayloadShape et).1 ∧
    suffixShape sfx = (expectedPayloadShape et).2 := by
  fin_cases hmem
  all_goals first
    | (obtain ⟨a, b, rfl, rfl⟩ := bind2_shape hp; exact ⟨rfl, rfl⟩)
    | (obtain ⟨a, rfl, rfl⟩ := bind1_shape hp; exact ⟨rfl, rfl⟩)
    | (obtain ⟨rfl, rfl⟩ := const_shape hp; exact ⟨rfl, rfl⟩)

/-! ## C6 — unknown event types are tolerated -/

/-- An event-type tag outside the switch's case labels takes the default
branch: empty payload plus the diagnostic line. -/
theorem parsePayload_unknown (et : EventType) (eventParts : List String)
    (hu : et ∉ handledEventTypes) :
    parsePayload et eventParts =
      some ({}, {}, ["unknown eventType:  " ++ et]) := by
  unfold parsePayload
  split
  all_goals try rfl
  all_goals exact absurd (by decide) hu

/-- Inverting a successful `parseRow`: the record's payload comes from
`parsePayload` applied to the record's own event type. -/
theorem parseRow_inv (year : Nat) (data : String) (r : CombatLogRecord)
    (ds : List String) (hp : parseRow year data = some (r, ds)) :
    ∃ eventParts, parsePayload r.EventType eventParts =
      some (r.toCombatPrefix, r.toCombatSuffix, ds) := by
  unfold parseRow at hp
  simp only [Option.bind_eq_some] at hp
  obtain ⟨s0, h0, s1, h1, t, ht, f0, hf0, f1, hf1, f2, hf2, f4, hf4,
          f5, hf5, pl, hpl, hfin⟩ := hp
  have h2 := Option.some.inj hfin
  have hr := congrArg (fun z => z.1) h2
  have hds := congrArg (fun z => z.2) h2
  simp only at hr hds
  subst hr
  subst hds
  exact ⟨strSplit s1 ",", hpl⟩

/-- C4: every record `parseRow` produces for a recognized event type has
exactly the prefix member and exactly the suffix member populated that
the fixed shape table prescribes for that event type — never more, never
fewer. -/
theorem parsed_record_shape_matches_table (year : Nat) (data : String)
    (r : CombatLogRecord) (ds : List String)
    (hp : parseRow year data = some (r, ds))
    (hmem : r.EventType ∈ handledEventTypes) :
    prefixShape r.toCombatPrefix =
      (expectedPayloadShape r.EventType).1 ∧
    suffixShape r.toCombatSuffix =
      (expectedPayloadShape r.EventType).2 := by
  obtain ⟨eventParts, hpl⟩ := parseRow_inv year data r ds hp
  exact parsePayload_shape r.EventType eventParts _ _ _ hmem hpl

set_option maxRecDepth 8000 in
/-- C4 witness: a concrete `SWING_DAMAGE` line parses to a record whose
shape is the table's (no prefix, damage suffix only). -/
theorem parsed_record_shape_matches_table_witness :
    ∃ (r : CombatLogRecord) (ds : List String),
      parseRow 2025
          "4/20 21:30:55.123  SWING_DAMAGE,0x0700000000000001,\"Aly\",0x514,0xF130000000000002,\"Skel\",0x514,450,0,1,nil,nil,nil,nil" =
        some (r, ds) ∧
      r.EventType ∈ handledEventTypes ∧
      (prefixShape r.toCombatPrefix =
        (expectedPayloadShape r.EventType).1 ∧
       suffixShape r.toCombatSuffix =
        (expectedPayloadShape r.EventType).2) :=
  ⟨_, _, rfl, by decide,
   parsed_record_shape_matches_table 2025
     "4/20 21:30:55.123  SWING_DAMAGE,0x0700000000000001,\"Aly\",0x514,0xF130000000000002,\"Skel\",0x514,450,0,1,nil,nil,nil,nil"
     _ _ rfl (by decide)⟩

/-- C6: a line whose event-type tag is unrecognized but whose header
parses still yields a record with a fully empty payload, together with
the non-fatal `unknown eventType` diagnostic (`parseRow` returns `some`,
so parsing of subsequent lines continues). -/
theorem unknown_event_tolerated (year : Nat) (data : String)
    (r : CombatLogRecord) (ds : List String)
    (hp : parseRow year data = some (r, ds))
    (hu : r.EventType ∉ handledEventTypes) :
    prefixShape r.toCombatPrefix = noPfx ∧
    suffixShape r.toCombatSuffix = noSfx ∧
    ds = ["unknown eventType:  " ++ r.EventType] := by
  obtain ⟨eventParts, hpl⟩ := parseRow_inv year data r ds hp
  rw [parsePayload_unknown r.EventType eventParts hu] at hpl
  have h2 := Option.some.inj hpl
  have hpfx : ({} : CombatPrefix) = r.toCombatPrefix :=
    congrArg (fun z => z.1) h2
  have hsfx : ({} : CombatSuffix) = r.toCombatSuffix :=
    congrArg (fun z => z.2.1) h2
  have hds : ["unknown eventType:  " ++ r.EventType] = ds :=
    congrArg (fun z => z.2.2) h2
  exact ⟨by rw [← hpfx]; rfl, by rw [← hsfx]; rfl, hds.symm⟩

/-- C6 witness: a well-formed line with the unrecognized tag
`WEIRD_EVENT` parses to a record with an empty payload and the
diagnostic. -/
theorem unknown_event_tolerated_witness :
    ∃ (r : CombatLogRecord) (ds : List String),
      parseRow 2025
          "4/20 21:30:55.123  WEIRD_EVENT,0x07,\"A\",0x514,0x07,\"B\",0x514" =
        some (r, ds) ∧
      (prefixShape r.toCombatPrefix = noPfx ∧
       suffixShape r.toCombatSuffix = noSfx ∧
       ds = ["unknown eventType:  " ++ r.EventType]) :=
  ⟨_, _, rfl,
   unknown_event_tolerated 2025
     "4/20 21:30:55.123  WEIRD_EVENT,0x07,\"A\",0x514,0x07,\"B\",0x514"
     _ _ rfl (by decide)⟩

/-! ## C10 — the healing branch is total on parser output -/

/-- `handleEvent` aborts exactly on the nil-`HealSuffix` dereference:
a record that is not damage-classified, is heal-classified, has a player
source, and carries no heal suffix. -/
theorem handleEvent_eq_none_iff (c : SummaryStats) (row : CombatLogRecord)
    (res : Int) : handleEvent c row res = none ↔ badHeal row = true := by
  by_cases hd : isDamageEvent row = true
  · by_cases h1 : dmgTakenCond row = true <;>
      by_cases h2 : dmgDoneCond row = true <;>
        simp [handleEvent, badHeal, hd, h1, h2]
  · by_cases hh : isHealingEvent row = true
    · by_cases hpl : isPlayerID row.SourceID = true
      · cases hhs : row.HealSuffix with
        | none => simp [handleEvent, badHeal, hd, hh, hpl, hhs]
        | some h0 => simp [handleEvent, badHeal, hd, hh, hpl, hhs]
      · simp [handleEvent, badHeal, hd, hh, hpl]
    · by_cases hov : isOverlayEvent row = true <;>
        simp [handleEvent, badHeal, hd, hh, hov]

/-- C10: on any record produced by `parseRow`, `handleEvent` cannot hit
the nil `HealSuffix` dereference: the heal-set event types that reach
the healing branch (`SPELL_HEAL`, `SPELL_PERIODIC_HEAL`) always carry a
heal suffix, and `SPELL_PERIODIC_LEECH` is consumed by the damage branch
first — so the engine is total on parser output. -/
theorem heal_branch_never_nil (c : SummaryStats) (res : Int) (year : Nat)
    (data : String) (r : CombatLogRecord) (ds : List String)
    (hp : parseRow year data = some (r, ds)) :
    handleEvent c r res ≠ none := by
  intro hnone
  have hbad := (handleEvent_eq_none_iff c r res).mp hnone
  unfold badHeal at hbad
  simp only [Bool.and_eq_true, Bool.not_eq_true'] at hbad
  obtain ⟨⟨⟨hd, hh⟩, hpl⟩, hnil⟩ := hbad
  have hmem := (sliceContains_iff HealEvents r.EventType).mp hh
  have hdm : sliceContains DamageEvents r.EventType = false := hd
  simp only [HealEvents, List.mem_cons, List.not_mem_nil, or_false]
    at hmem
  obtain ⟨eventParts, hpayload⟩ := parseRow_inv year data r ds hp
  rcases hmem with h1 | h1 | h1
  · rw [h1] at hpayload
    obtain ⟨a, b, _, hsfx⟩ := bind2_shape hpayload
    have hx : r.HealSuffix = some b := by
      have hy : r.toCombatSuffix.HealSuffix = some b := by rw [hsfx]
      exact hy
    rw [hx] at hnil
    simp at hnil
  · rw [h1] at hpayload
    obtain ⟨a, b, _, hsfx⟩ := bind2_shape hpayload
    have hx : r.HealSuffix = some b := by
      have hy : r.toCombatSuffix.HealSuffix = some b := by rw [hsfx]
      exact hy
    rw [hx] at hnil
    simp at hnil
  · rw [h1] at hdm
    exact absurd hdm (by decide)

set_option maxRecDepth 8000 in
/-- C10 witness: a concrete `SPELL_HEAL` line parses and the engine
processes the resulting record without aborting. -/
theorem heal_branch_never_nil_witness :
    ∃ (r : CombatLogRecord) (ds : List String),
      parseRow 2025
          "4/20 21:30:55.123  SPELL_HEAL,0x0700000000000001,\"Aly\",0x514,0x0700000000000002,\"Bob\",0x514,48782,\"Holy Light\",2,5000,100,0,nil" =
        some (r, ds) ∧
      handleEvent emptyStats r 30000 ≠ none :=
  ⟨_, _, rfl,
   heal_branch_never_nil emptyStats 30000 2025
     "4/20 21:30:55.123  SPELL_HEAL,0x0700000000000001,\"Aly\",0x514,0x0700000000000002,\"Bob\",0x514,48782,\"Holy Light\",2,5000,100,0,nil"
     _ _ rfl⟩

/-! ## C7 — malformed numeric tokens are fatal, malformed booleans are
not -/

/-- C7 counterexample: a malformed critical-flag token (`"zzz"`: no
`"nil"` substring, not in the `ParseBool` grammar) does not abort the
parse — `parseNilBool` returns `false` and the damage suffix parses
successfully, where the claim requires a fatal parse error. -/
theorem malformed_critical_flag_not_fatal :
    parseNilBool "zzz" = false ∧
    parseDamageSuffix ["5", "0", "1", "nil", "nil", "nil", "zzz"] 0 =
      some { Amount := 5, Overkill := 0, SpellSchool := 1, Resisted := 0,
             Blocked := 0, Absorbed := 0, Critical := false } :=
  ⟨rfl, rfl⟩

/-- C7 amended: a numeric token that neither contains `"nil"` nor
matches the signed decimal grammar makes every integer-field parser fail
— and any line whose parse fails aborts the whole run with no partial
result — but the boolean critical-flag field is the exception: a
malformed token there parses to `false` without failing. -/
theorem malformed_numeric_fatal_bool_recovers :
    (∀ s, strContains s "nil" = false → ParseInt64 s = none →
      mustParseUint s = none ∧ mustParseInt s = none ∧
      mustParseIntOrNil s = none) ∧
    (∀ s, strContains s "nil" = false → ParseBool s = none →
      parseNilBool s = false) ∧
    (∀ (year : Nat) (lines : List String) (line : String),
      line ∈ lines → parseRow year line = none →
      parseAllRows year lines = none) := by
  refine ⟨?_, ?_, ?_⟩
  · intro s hn hp
    exact ⟨by simp [mustParseUint, hp], hp,
           by simp [mustParseIntOrNil, hn, mustParseUint, hp]⟩
  · intro s hn hb
    simp [parseNilBool, hn, hb]
  · intro year lines line hmem hnone
    induction lines with
    | nil => cases hmem
    | cons x xs ih =>
      rcases List.mem_cons.mp hmem with rfl | hm
      · simp [parseAllRows, hnone]
      · cases hx : parseRow year x with
        | none => simp [parseAllRows, hx]
        | some rp =>
          obtain ⟨r0, d0⟩ := rp
          simp [parseAllRows, hx, ih hm]

/-- C7 amended, witness: the malformed token `"abc"` fails every integer
parser, a single malformed line kills the whole parse, and the malformed
boolean recovers to `false`. -/
theorem malformed_numeric_fatal_bool_recovers_witness :
    (mustParseUint "abc" = none ∧ mustParseInt "abc" = none ∧
      mustParseIntOrNil "abc" = none) ∧
    parseNilBool "abc" = false ∧
    parseAllRows 2025 ["bad"] = none :=
  ⟨malformed_numeric_fatal_bool_recovers.1 "abc" rfl rfl,
   malformed_numeric_fatal_bool_recovers.2.1 "abc" rfl rfl,
   malformed_numeric_fatal_bool_recovers.2.2 2025 ["bad"] "bad"
     (List.mem_singleton.mpr rfl) rfl⟩

/-! ## C8 — totals are invariant under record permutation -/

/-- The boss-encounter step changes only `EncounterOverlays`; all six
per-source/per-spell total maps are untouched. -/
theorem bossEncounterStep_totals (c : SummaryStats)
    (row : CombatLogRecord) (res : Int) :
    (bossEncounterStep c row res).DamageBySource = c.DamageBySource ∧
    (bossEncounterStep c row res).HealingBySource = c.HealingBySource ∧
    (bossEncounterStep c row res).DamageTakenBySource =
      c.DamageTakenBySource ∧
    (bossEncounterStep c row res).DamageTakenBySpell =
      c.DamageTakenBySpell ∧
    (bossEncounterStep c row res).InterruptsBySource =
      c.InterruptsBySource ∧
    (bossEncounterStep c row res).DispellsBySource = c.DispellsBySource := by
  unfold bossEncounterStep
  split <;> exact ⟨rfl, rfl, rfl, rfl, rfl, rfl⟩

/-- `mapAdd` keeps values below the modulus. -/
theorem mapAdd_lt {κ : Type} [DecidableEq κ] (m : κ → Nat) (k0 : κ)
    (v : Nat) (hm : ∀ x, m x < U64MOD) : ∀ x, mapAdd m k0 v x < U64MOD := by
  intro x
  unfold mapAdd
  split
  · exact Nat.mod_lt _ (by norm_num [U64MOD])
  · exact hm x

/-- Pointwise description of `mapAdd` on a bounded map. -/
theorem mapAdd_char {κ : Type} [DecidableEq κ] (m : κ → Nat) (k0 : κ)
    (v : Nat) (hm : ∀ x, m x < U64MOD) (x : κ) :
    mapAdd m k0 v x = (m x + if x = k0 then v else 0) % U64MOD := by
  unfold mapAdd
  by_cases h : x = k0
  · simp [h]
  · simp [h, Nat.mod_eq_of_lt (hm x)]

/-- The damage-taken leaf of `handleEvent`. -/
theorem handleEvent_eq_taken (c : SummaryStats) (row : CombatLogRecord)
    (res : Int) (hd : isDamageEvent row = true)
    (htk : dmgTakenCond row = true) :
    handleEvent c row res =
      some { bossEncounterStep c row res with
        DamageTakenBySource :=
          mapAdd (bossEncounterStep c row res).DamageTakenBySource
            row.SourceName (damageAmount row),
        DamageTakenOverTime :=
          mapAdd (bossEncounterStep c row res).DamageTakenOverTime
            (truncate row.Timestamp res) (damageAmount row),
        DamageTakenBySpell :=
          match row.SpellAndRangePrefix with
          | some p =>
            mapAdd (bossEncounterStep c row res).DamageTakenBySpell
              p.SpellName (damageAmount row)
          | none => (bossEncounterStep c row res).DamageTakenBySpell } := by
  unfold handleEvent
  simp [hd, htk]

/-- The damage-done leaf of `handleEvent`. -/
theorem handleEvent_eq_done (c : SummaryStats) (row : CombatLogRecord)
    (res : Int) (hd : isDamageEvent row = true)
    (htk : dmgTakenCond row = false) (hdn : dmgDoneCond row = true) :
    handleEvent c row res =
      some { bossEncounterStep c row res with
        DamageBySource :=
          mapAdd (bossEncounterStep c row res).DamageBySource
            row.SourceName (damageAmount row),
        DamageDoneOverTime :=
          mapAdd (bossEncounterStep c row res).DamageDoneOverTime
            (truncate row.Timestamp res) (damageAmount row) } := by
  unfold handleEvent
  simp [hd, htk, hdn]

/-- The ignored-damage leaf of `handleEvent`. -/
theorem handleEvent_eq_neither (c : SummaryStats) (row : CombatLogRecord)
    (res : Int) (hd : isDamageEvent row = true)
    (htk : dmgTakenCond row = false) (hdn : dmgDoneCond row = false) :
    handleEvent c row res = some (bossEncounterStep c row res) := by
  unfold handleEvent
  simp [hd, htk, hdn]

/-- The healing leaf of `handleEvent` (player source, suffix present). -/
theorem handleEvent_eq_heal (c : SummaryStats) (row : CombatLogRecord)
    (res : Int) (h0 : HealSuffix) (hd : isDamageEvent row = false)
    (hh : isHealingEvent row = true) (hpl : isPlayerID row.SourceID = true)
    (hhs : row.HealSuffix = some h0) :
    handleEvent c row res =
      some { c with
        HealingBySource :=
          mapAdd c.HealingBySource row.SourceName h0.Amount,
        HealingpDoneOverTime :=
          mapAdd c.HealingpDoneOverTime (truncate row.Timestamp res)
            h0.Amount } := by
  unfold handleEvent
  simp [hd, hh, hpl, hhs]

/-- The ignored-healing leaf of `handleEvent` (non-player source). -/
theorem handleEvent_eq_heal_nonplayer (c : SummaryStats)
    (row : CombatLogRecord) (res : Int) (hd : isDamageEvent row = false)
    (hh : isHealingEvent row = true)
    (hpl : isPlayerID row.SourceID = false) :
    handleEvent c row res = some c := by
  unfold handleEvent
  simp [hd, hh, hpl]

/-- The overlay leaf of `handleEvent`. -/
theorem handleEvent_eq_overlay (c : SummaryStats) (row : CombatLogRecord)
    (res : Int) (hd : isDamageEvent row = false)
    (hh : isHealingEvent row = false) (hov : isOverlayEvent row = true) :
    handleEvent c row res =
      some { c with
        DispellsBySource := mapAdd c.DispellsBySource row.SourceName 1,
        InterruptsBySource :=
          mapAdd c.InterruptsBySource row.SourceName 1 } := by
  unfold handleEvent
  simp [hd, hh, hov]

/-- The unrecognized-category leaf of `handleEvent`. -/
theorem handleEvent_eq_other (c : SummaryStats) (row : CombatLogRecord)
    (res : Int) (hd : isDamageEvent row = false)
    (hh : isHealingEvent row = false) (hov : isOverlayEvent row = false) :
    handleEvent c row res = some c := by
  unfold handleEvent
  simp [hd, hh, hov]

/-- Case split on a `Bool`, `false` first. -/
theorem bool_cases (b : Bool) : b = false ∨ b = true := by
  cases b
  · exact Or.inl rfl
  · exact Or.inr rfl

/-- One successful `handleEvent` step changes each of the six total maps
by the record's own delta (wrap-around addition), independently of the
accumulator, and preserves boundedness. -/
theorem handleEvent_totals_char (c : SummaryStats) (row : CombatLogRecord)
    (res : Int) (s2 : SummaryStats) (hb : BoundedTotals c)
    (h : handleEvent c row res = some s2) :
    BoundedTotals s2 ∧
    (∀ k, s2.DamageBySource k =
      (c.DamageBySource k + deltaDamageBySource row k) % U64MOD) ∧
    (∀ k, s2.HealingBySource k =
      (c.HealingBySource k + deltaHealingBySource row k) % U64MOD) ∧
    (∀ k, s2.DamageTakenBySource k =
      (c.DamageTakenBySource k + deltaDamageTakenBySource row k) %
        U64MOD) ∧
    (∀ k, s2.DamageTakenBySpell k =
      (c.DamageTakenBySpell k + deltaDamageTakenBySpell row k) %
        U64MOD) ∧
    (∀ k, s2.InterruptsBySource k =
      (c.InterruptsBySource k + deltaInterruptsBySource row k) %
        U64MOD) ∧
    (∀ k, s2.DispellsBySource k =
      (c.DispellsBySource k + deltaDispellsBySource row k) % U64MOD) := by
  obtain ⟨hb1, hb2, hb3, hb4, hb5, hb6⟩ := hb
  obtain ⟨q1, q2, q3, q4, q5, q6⟩ := bossEncounterStep_totals c row res
  rcases bool_cases (isDamageEvent row) with hd | hd
  · -- not a damage event
    rcases bool_cases (isHealingEvent row) with hh | hh
    · -- neither damage nor heal
      rcases bool_cases (isOverlayEvent row) with hov | hov
      · -- unrecognized: accumulator unchanged
        rw [handleEvent_eq_other c row res hd hh hov] at h
        cases Option.some.inj h
        refine ⟨⟨hb1, hb2, hb3, hb4, hb5, hb6⟩,
                fun k => ?_, fun k => ?_, fun k => ?_, fun k => ?_,
                fun k => ?_, fun k => ?_⟩
        · simp [deltaDamageBySource, hd, Nat.mod_eq_of_lt (hb1 k)]
        · simp [deltaHealingBySource, hd, hh,
                Nat.mod_eq_of_lt (hb2 k)]
        · simp [deltaDamageTakenBySource, hd,
                Nat.mod_eq_of_lt (hb3 k)]
        · cases hpre : row.SpellAndRangePrefix with
          | none => simp [deltaDamageTakenBySpell, hpre,
                          Nat.mod_eq_of_lt (hb4 k)]
          | some p => simp [deltaDamageTakenBySpell, hpre, hd,
                            Nat.mod_eq_of_lt (hb4 k)]
        · simp [deltaInterruptsBySource, hov, Nat.mod_eq_of_lt (hb5 k)]
        · simp [deltaDispellsBySource, hov, Nat.mod_eq_of_lt (hb6 k)]
      · -- overlay: both counters bumped
        rw [handleEvent_eq_overlay c row res hd hh hov] at h
        cases Option.some.inj h
        refine ⟨⟨hb1, hb2, hb3, hb4,
                 mapAdd_lt _ _ _ hb5, mapAdd_lt _ _ _ hb6⟩,
                fun k => ?_, fun k => ?_, fun k => ?_, fun k => ?_,
                fun k => ?_, fun k => ?_⟩
        · simp [deltaDamageBySource, hd, Nat.mod_eq_of_lt (hb1 k)]
        · simp [deltaHealingBySource, hd, hh,
                Nat.mod_eq_of_lt (hb2 k)]
        · simp [deltaDamageTakenBySource, hd,
                Nat.mod_eq_of_lt (hb3 k)]
        · cases hpre : row.SpellAndRangePrefix with
          | none => simp [deltaDamageTakenBySpell, hpre,
                          Nat.mod_eq_of_lt (hb4 k)]
          | some p => simp [deltaDamageTakenBySpell, hpre, hd,
                            Nat.mod_eq_of_lt (hb4 k)]
        · dsimp only
          rw [mapAdd_char _ _ _ hb5]
          simp [deltaInterruptsBySource, hd, hh, hov]
        · dsimp only
          rw [mapAdd_char _ _ _ hb6]
          simp [deltaDispellsBySource, hd, hh, hov]
    · -- healing event
      rcases bool_cases (isPlayerID row.SourceID) with
        hpl | hpl
      · -- non-player source: unchanged
        rw [handleEvent_eq_heal_nonplayer c row res hd hh hpl] at h
        cases Option.some.inj h
        refine ⟨⟨hb1, hb2, hb3, hb4, hb5, hb6⟩,
                fun k => ?_, fun k => ?_, fun k => ?_, fun k => ?_,
                fun k => ?_, fun k => ?_⟩
        · simp [deltaDamageBySource, hd, Nat.mod_eq_of_lt (hb1 k)]
        · simp [deltaHealingBySource, hpl, Nat.mod_eq_of_lt (hb2 k)]
        · simp [deltaDamageTakenBySource, hd,
                Nat.mod_eq_of_lt (hb3 k)]
        · cases hpre : row.SpellAndRangePrefix with
          | none => simp [deltaDamageTakenBySpell, hpre,
                          Nat.mod_eq_of_lt (hb4 k)]
          | some p => simp [deltaDamageTakenBySpell, hpre, hd,
                            Nat.mod_eq_of_lt (hb4 k)]
        · simp [deltaInterruptsBySource, hh, Nat.mod_eq_of_lt (hb5 k)]
        · simp [deltaDispellsBySource, hh, Nat.mod_eq_of_lt (hb6 k)]
      · -- player source: the suffix must be present, else no `some`
        cases hhs : row.HealSuffix with
        | none =>
          have : handleEvent c row res = none :=
            (handleEvent_eq_none_iff c row res).mpr
              (by simp [badHeal, hd, hh, hpl, hhs])
          rw [this] at h
          exact Option.noConfusion h
        | some h0 =>
          rw [handleEvent_eq_heal c row res h0 hd hh hpl hhs] at h
          cases Option.some.inj h
          refine ⟨⟨hb1, mapAdd_lt _ _ _ hb2, hb3, hb4, hb5, hb6⟩,
                  fun k => ?_, fun k => ?_, fun k => ?_, fun k => ?_,
                  fun k => ?_, fun k => ?_⟩
          · simp [deltaDamageBySource, hd, Nat.mod_eq_of_lt (hb1 k)]
          · dsimp only
            rw [mapAdd_char _ _ _ hb2]
            simp [deltaHealingBySource, hd, hh, hpl, healAmount, hhs]
          · simp [deltaDamageTakenBySource, hd,
                  Nat.mod_eq_of_lt (hb3 k)]
          · cases hpre : row.SpellAndRangePrefix with
            | none => simp [deltaDamageTakenBySpell, hpre,
                            Nat.mod_eq_of_lt (hb4 k)]
            | some p => simp [deltaDamageTakenBySpell, hpre, hd,
                              Nat.mod_eq_of_lt (hb4 k)]
          · simp [deltaInterruptsBySource, hh,
                  Nat.mod_eq_of_lt (hb5 k)]
          · simp [deltaDispellsBySource, hh,
                  Nat.mod_eq_of_lt (hb6 k)]
  · -- damage event
    rcases bool_cases (dmgTakenCond row) with htk | htk
    · rcases bool_cases (dmgDoneCond row) with hdn | hdn
      · -- ignored combination: only the encounter step applies
        rw [handleEvent_eq_neither c row res hd htk hdn] at h
        cases Option.some.inj h
        refine ⟨⟨fun x => by rw [q1]; exact hb1 x,
                 fun x => by rw [q2]; exact hb2 x,
                 fun x => by rw [q3]; exact hb3 x,
                 fun x => by rw [q4]; exact hb4 x,
                 fun x => by rw [q5]; exact hb5 x,
                 fun x => by rw [q6]; exact hb6 x⟩,
                fun k => ?_, fun k => ?_, fun k => ?_, fun k => ?_,
                fun k => ?_, fun k => ?_⟩
        · rw [q1]
          simp [deltaDamageBySource, hdn, Nat.mod_eq_of_lt (hb1 k)]
        · rw [q2]
          simp [deltaHealingBySource, hd, Nat.mod_eq_of_lt (hb2 k)]
        · rw [q3]
          simp [deltaDamageTakenBySource, htk,
                Nat.mod_eq_of_lt (hb3 k)]
        · rw [q4]
          cases hpre : row.SpellAndRangePrefix with
          | none => simp [deltaDamageTakenBySpell, hpre,
                          Nat.mod_eq_of_lt (hb4 k)]
          | some p => simp [deltaDamageTakenBySpell, hpre, htk,
                            Nat.mod_eq_of_lt (hb4 k)]
        · rw [q5]
          simp [deltaInterruptsBySource, hd, Nat.mod_eq_of_lt (hb5 k)]
        · rw [q6]
          simp [deltaDispellsBySource, hd, Nat.mod_eq_of_lt (hb6 k)]
      · -- damage done
        rw [handleEvent_eq_done c row res hd htk hdn] at h
        cases Option.some.inj h
        refine ⟨⟨mapAdd_lt _ _ _ (fun x => by rw [q1]; exact hb1 x),
                 fun x => by dsimp only; rw [q2]; exact hb2 x,
                 fun x => by dsimp only; rw [q3]; exact hb3 x,
                 fun x => by dsimp only; rw [q4]; exact hb4 x,
                 fun x => by dsimp only; rw [q5]; exact hb5 x,
                 fun x => by dsimp only; rw [q6]; exact hb6 x⟩,
                fun k => ?_, fun k => ?_, fun k => ?_, fun k => ?_,
                fun k => ?_, fun k => ?_⟩
        · dsimp only
          rw [q1, mapAdd_char _ _ _ hb1]
          simp [deltaDamageBySource, hd, htk, hdn]
        · dsimp only
          rw [q2]
          simp [deltaHealingBySource, hd, Nat.mod_eq_of_lt (hb2 k)]
        · dsimp only
          rw [q3]
          simp [deltaDamageTakenBySource, htk,
                Nat.mod_eq_of_lt (hb3 k)]
        · dsimp only
          rw [q4]
          cases hpre : row.SpellAndRangePrefix with
          | none => simp [deltaDamageTakenBySpell, hpre,
                          Nat.mod_eq_of_lt (hb4 k)]
          | some p => simp [deltaDamageTakenBySpell, hpre, htk,
                            Nat.mod_eq_of_lt (hb4 k)]
        · dsimp only
          rw [q5]
          simp [deltaInterruptsBySource, hd, Nat.mod_eq_of_lt (hb5 k)]
        · dsimp only
          rw [q6]
          simp [deltaDispellsBySource, hd, Nat.mod_eq_of_lt (hb6 k)]
    · -- damage taken
      rw [handleEvent_eq_taken c row res hd htk] at h
      cases Option.some.inj h
      refine ⟨⟨fun x => by dsimp only; rw [q1]; exact hb1 x,
               fun x => by dsimp only; rw [q2]; exact hb2 x,
               mapAdd_lt _ _ _ (fun x => by rw [q3]; exact hb3 x),
               ?_,
               fun x => by dsimp only; rw [q5]; exact hb5 x,
               fun x => by dsimp only; rw [q6]; exact hb6 x⟩,
              fun k => ?_, fun k => ?_, fun k => ?_, fun k => ?_,
              fun k => ?_, fun k => ?_⟩
      · cases hpre : row.SpellAndRangePrefix with
        | none =>
          intro x
          show (bossEncounterStep c row res).DamageTakenBySpell x <
            U64MOD
          rw [q4]
          exact hb4 x
        | some p =>
          intro x
          show mapAdd (bossEncounterStep c row res).DamageTakenBySpell
            p.SpellName (damageAmount row) x < U64MOD
          exact mapAdd_lt _ _ _ (fun y => by rw [q4]; exact hb4 y) x
      · dsimp only
        rw [q1]
        simp [deltaDamageBySource, htk, Nat.mod_eq_of_lt (hb1 k)]
      · dsimp only
        rw [q2]
        simp [deltaHealingBySource, hd, Nat.mod_eq_of_lt (hb2 k)]
      · dsimp only
        rw [q3, mapAdd_char _ _ _ hb3]
        simp [deltaDamageTakenBySource, hd, htk]
      · cases hpre : row.SpellAndRangePrefix with
        | none =>
          show (bossEncounterStep c row res).DamageTakenBySpell k =
            (c.DamageTakenBySpell k + deltaDamageTakenBySpell row k) %
              U64MOD
          rw [q4]
          simp [deltaDamageTakenBySpell, hpre,
                Nat.mod_eq_of_lt (hb4 k)]
        | some p =>
          show mapAdd (bossEncounterStep c row res).DamageTakenBySpell
              p.SpellName (damageAmount row) k =
            (c.DamageTakenBySpell k + deltaDamageTakenBySpell row k) %
              U64MOD
          rw [q4, mapAdd_char _ _ _ hb4]
          simp [deltaDamageTakenBySpell, hpre, hd, htk]
      · dsimp only
        rw [q5]
        simp [deltaInterruptsBySource, hd, Nat.mod_eq_of_lt (hb5 k)]
      · dsimp only
        rw [q6]
        simp [deltaDispellsBySource, hd, Nat.mod_eq_of_lt (hb6 k)]

/-- Folding `handleEvent` over a record list accumulates, in each of the
six total maps, the wrap-around sum of the per-record deltas. -/
theorem runAux_totals_char (res : Int) :
    ∀ (l : List CombatLogRecord) (c s : SummaryStats),
    BoundedTotals c → runAux res c l = some s →
    (∀ k, s.DamageBySource k =
      (c.DamageBySource k +
        (l.map (fun r => deltaDamageBySource r k)).sum) % U64MOD) ∧
    (∀ k, s.HealingBySource k =
      (c.HealingBySource k +
        (l.map (fun r => deltaHealingBySource r k)).sum) % U64MOD) ∧
    (∀ k, s.DamageTakenBySource k =
      (c.DamageTakenBySource k +
        (l.map (fun r => deltaDamageTakenBySource r k)).sum) % U64MOD) ∧
    (∀ k, s.DamageTakenBySpell k =
      (c.DamageTakenBySpell k +
        (l.map (fun r => deltaDamageTakenBySpell r k)).sum) % U64MOD) ∧
    (∀ k, s.InterruptsBySource k =
      (c.InterruptsBySource k +
        (l.map (fun r => deltaInterruptsBySource r k)).sum) % U64MOD) ∧
    (∀ k, s.DispellsBySource k =
      (c.DispellsBySource k +
        (l.map (fun r => deltaDispellsBySource r k)).sum) % U64MOD) := by
  intro l
  induction l with
  | nil =>
    intro c s hb h
    cases Option.some.inj h
    obtain ⟨hb1, hb2, hb3, hb4, hb5, hb6⟩ := hb
    exact ⟨fun k => by simp [Nat.mod_eq_of_lt (hb1 k)],
           fun k => by simp [Nat.mod_eq_of_lt (hb2 k)],
           fun k => by simp [Nat.mod_eq_of_lt (hb3 k)],
           fun k => by simp [Nat.mod_eq_of_lt (hb4 k)],
           fun k => by simp [Nat.mod_eq_of_lt (hb5 k)],
           fun k => by simp [Nat.mod_eq_of_lt (hb6 k)]⟩
  | cons r rest ih =>
    intro c s hb h
    unfold runAux at h
    cases hh : handleEvent c r res with
    | none =>
      rw [hh] at h
      exact Option.noConfusion h
    | some c2 =>
      rw [hh] at h
      obtain ⟨hb2, e1, e2, e3, e4, e5, e6⟩ :=
        handleEvent_totals_char c r res c2 hb hh
      obtain ⟨f1, f2, f3, f4, f5, f6⟩ := ih c2 s hb2 h
      refine ⟨fun k => ?_, fun k => ?_, fun k => ?_, fun k => ?_,
              fun k => ?_, fun k => ?_⟩
      · rw [f1 k, e1 k, List.map_cons, List.sum_cons, Nat.mod_add_mod,
            Nat.add_assoc]
      · rw [f2 k, e2 k, List.map_cons, List.sum_cons, Nat.mod_add_mod,
            Nat.add_assoc]
      · rw [f3 k, e3 k, List.map_cons, List.sum_cons, Nat.mod_add_mod,
            Nat.add_assoc]
      · rw [f4 k, e4 k, List.map_cons, List.sum_cons, Nat.mod_add_mod,
            Nat.add_assoc]
      · rw [f5 k, e5 k, List.map_cons, List.sum_cons, Nat.mod_add_mod,
            Nat.add_assoc]
      · rw [f6 k, e6 k, List.map_cons, List.sum_cons, Nat.mod_add_mod,
            Nat.add_assoc]

/-- The record fold aborts exactly when some record in the list triggers
the nil-`HealSuffix` dereference (a property of the record alone). -/
theorem runAux_eq_none_iff (res : Int) :
    ∀ (l : List CombatLogRecord) (c : SummaryStats),
    (runAux res c l = none ↔ ∃ r ∈ l, badHeal r = true) := by
  intro l
  induction l with
  | nil =>
    intro c
    simp [runAux]
  | cons r rest ih =>
    intro c
    unfold runAux
    cases hh : handleEvent c r res with
    | none =>
      have hb := (handleEvent_eq_none_iff c r res).mp hh
      constructor
      · intro _
        exact ⟨r, List.mem_cons_self r rest, hb⟩
      · intro _
        rfl
    | some c2 =>
      have hnb : badHeal r = false := by
        rcases bool_cases (badHeal r) with h0 | h0
        · exact h0
        · exact absurd ((handleEvent_eq_none_iff c r res).mpr h0)
            (by simp [hh])
      rw [ih c2]
      constructor
      · rintro ⟨x, hx, hbx⟩
        exact ⟨x, List.mem_cons_of_mem r hx, hbx⟩
      · rintro ⟨x, hx, hbx⟩
        rcases List.mem_cons.mp hx with rfl | hx2
        · rw [hbx] at hnb
          exact Bool.noConfusion hnb
        · exact ⟨x, hx2, hbx⟩

/-- The empty accumulator is bounded. -/
theorem emptyStats_bounded : BoundedTotals emptyStats := by
  refine ⟨fun k => ?_, fun k => ?_, fun k => ?_, fun k => ?_,
          fun k => ?_, fun k => ?_⟩ <;>
    norm_num [emptyStats, U64MOD]

/-- C8: running the collector on any permutation of a record sequence
with pairwise-distinct timestamps produces the same `DamageBySource`,
`HealingBySource`, `DamageTakenBySource`, `DamageTakenBySpell`,
`InterruptsBySource` and `DispellsBySource` maps (and the two runs agree
on success). -/
theorem run_totals_perm_invariant (res : Int)
    (l l2 : List CombatLogRecord) (hperm : l.Perm l2)
    (hts : (l.map (fun r => r.Timestamp)).Nodup) :
    (Run res l).map SummaryStats.DamageBySource =
      (Run res l2).map SummaryStats.DamageBySource ∧
    (Run res l).map SummaryStats.HealingBySource =
      (Run res l2).map SummaryStats.HealingBySource ∧
    (Run res l).map SummaryStats.DamageTakenBySource =
      (Run res l2).map SummaryStats.DamageTakenBySource ∧
    (Run res l).map SummaryStats.DamageTakenBySpell =
      (Run res l2).map SummaryStats.DamageTakenBySpell ∧
    (Run res l).map SummaryStats.InterruptsBySource =
      (Run res l2).map SummaryStats.InterruptsBySource ∧
    (Run res l).map SummaryStats.DispellsBySource =
      (Run res l2).map SummaryStats.DispellsBySource := by
  cases hrun : Run res l with
  | none =>
    have hbad : ∃ r ∈ l, badHeal r = true :=
      (runAux_eq_none_iff res l emptyStats).mp hrun
    obtain ⟨r0, hr0, hb0⟩ := hbad
    have hrun2 : Run res l2 = none :=
      (runAux_eq_none_iff res l2 emptyStats).mpr
        ⟨r0, hperm.mem_iff.mp hr0, hb0⟩
    rw [hrun2]
    exact ⟨rfl, rfl, rfl, rfl, rfl, rfl⟩
  | some s =>
    have hnone2 : Run res l2 ≠ none := by
      intro h0
      obtain ⟨r0, hr0, hb0⟩ :=
        (runAux_eq_none_iff res l2 emptyStats).mp h0
      have : Run res l = none :=
        (runAux_eq_none_iff res l emptyStats).mpr
          ⟨r0, hperm.mem_iff.mpr hr0, hb0⟩
      rw [hrun] at this
      exact Option.noConfusion this
    obtain ⟨s2, hrun2⟩ := Option.ne_none_iff_exists'.mp hnone2
    rw [hrun2]
    obtain ⟨a1, a2, a3, a4, a5, a6⟩ :=
      runAux_totals_char res l emptyStats s emptyStats_bounded hrun
    obtain ⟨b1, b2, b3, b4, b5, b6⟩ :=
      runAux_totals_char res l2 emptyStats s2 emptyStats_bounded hrun2
    have hsum : ∀ (f : CombatLogRecord → String → Nat) (k : String),
        (l.map (fun r => f r k)).sum = (l2.map (fun r => f r k)).sum :=
      fun f k => (hperm.map (fun r => f r k)).sum_eq
    refine ⟨?_, ?_, ?_, ?_, ?_, ?_⟩
    · exact congrArg some (funext fun k => by
        rw [a1 k, b1 k, hsum (fun r => deltaDamageBySource r) k])
    · exact congrArg some (funext fun k => by
        rw [a2 k, b2 k, hsum (fun r => deltaHealingBySource r) k])
    · exact congrArg some (funext fun k => by
        rw [a3 k, b3 k, hsum (fun r => deltaDamageTakenBySource r) k])
    · exact congrArg some (funext fun k => by
        rw [a4 k, b4 k, hsum (fun r => deltaDamageTakenBySpell r) k])
    · exact congrArg some (funext fun k => by
        rw [a5 k, b5 k, hsum (fun r => deltaInterruptsBySource r) k])
    · exact congrArg some (funext fun k => by
        rw [a6 k, b6 k, hsum (fun r => deltaDispellsBySource r) k])

/-- C8 witness: swapping a concrete two-record sequence (distinct
timestamps) leaves all six total maps identical. -/
theorem run_totals_perm_invariant_witness :
    (Run 30000 [permRowB, permRowA]).map SummaryStats.DamageBySource =
      (Run 30000 [permRowA, permRowB]).map SummaryStats.DamageBySource ∧
    (Run 30000 [permRowB, permRowA]).map SummaryStats.HealingBySource =
      (Run 30000 [permRowA, permRowB]).map SummaryStats.HealingBySource ∧
    (Run 30000 [permRowB, permRowA]).map
        SummaryStats.DamageTakenBySource =
      (Run 30000 [permRowA, permRowB]).map
        SummaryStats.DamageTakenBySource ∧
    (Run 30000 [permRowB, permRowA]).map
        SummaryStats.DamageTakenBySpell =
      (Run 30000 [permRowA, permRowB]).map
        SummaryStats.DamageTakenBySpell ∧
    (Run 30000 [permRowB, permRowA]).map
        SummaryStats.InterruptsBySource =
      (Run 30000 [permRowA, permRowB]).map
        SummaryStats.InterruptsBySource ∧
    (Run 30000 [permRowB, permRowA]).map SummaryStats.DispellsBySource =
      (Run 30000 [permRowA, permRowB]).map
        SummaryStats.DispellsBySource :=
  run_totals_perm_invariant 30000 [permRowB, permRowA]
    [permRowA, permRowB] (List.Perm.swap permRowA permRowB [])
    (by decide)

end Frostparse
